import Mathlib

/-!
Verification of the workflow-dispatch action (`src/main.ts`).

The single orchestration routine `run()` is embedded as the pure function
`runMain`: the external collaborators (task input system, ambient context,
JSON parser, and the four API endpoints) are gathered in an `Env` record,
network time is an oracle indexed by attempt, and the effects of one
invocation (outputs set, outcome, warning, outbound API calls) are
returned in a `RunResult`.  The unbounded completion-polling loop is
given explicit fuel; exhausting the fuel is reported as `stillPolling`.
-/

namespace WorkflowDispatch

/-- The Workflow record of `src/main.ts`: an id (number), a name and a path. -/
structure Workflow where
  id : Nat
  name : String
  path : String
deriving DecidableEq

/-- Run snapshot: `{id, status, conclusion, created_at}`; `created_at` is held as
milliseconds since epoch (the value of `new Date(run.created_at).getTime()`). -/
structure Run where
  id : Nat
  status : String
  conclusion : Option String
  created_at : Int
deriving DecidableEq

/-- Tagged JSON value, the result of `JSON.parse` on the `inputs` string. -/
inductive Json where
  | null
  | bool (b : Bool)
  | num (n : Int)
  | str (s : String)
  | arr (elems : List Json)
  | obj (fields : List (String × Json))

/-- One outbound API call, as recorded in the invocation trace.  `owner`/`repo`
are `Option String` because JS array destructuring of `repo.split('/')` can
leave `repo` undefined. -/
inductive ApiCall where
  | listWorkflows (owner repo : Option String)
  | dispatch (owner repo : Option String) (workflowId : Nat) (ref : String) (payload : Json)
  | listRuns (owner repo : Option String) (workflowId : Nat) (branch : String) (perPage : Nat)
  | getRun (owner repo : Option String) (runId : Nat)

/-- Value passed to `core.setOutput` (a number, a string, or JS `null`). -/
inductive OutVal where
  | num (n : Nat)
  | str (s : String)
  | null
deriving DecidableEq

/-- Final state of the invocation: `core.setFailed` called with a message,
normal return (success), or the completion-poll loop still running when the
fuel ran out. -/
inductive Outcome where
  | success
  | failed (msg : String)
  | stillPolling
deriving DecidableEq

/-- Observable effects of one invocation of `run()`. -/
structure RunResult where
  outcome : Outcome
  warned : Bool
  outputs : List (String × OutVal)
  trace : List ApiCall

/-- Environment of one invocation: the five task inputs (`core.getInput`
returns `""` when unset), the ambient GitHub context, `JSON.parse`, and the
responses of the four API endpoints.  `listRunsResp k` is
`workflow_runs[0]` of the page returned on correlation attempt `k`
(`none` for an empty page), `nowAt k` is `Date.now()` at that attempt, and
`getRunResp k i` is the response to the `k`-th completion poll, which
requested run id `i`. -/
structure Env where
  inputWorkflow : String
  inputToken : String
  inputRef : String
  inputRepo : String
  inputInputs : String
  contextRef : String
  contextOwner : String
  contextRepo : String
  parseJson : String → Except String Json
  listWorkflowsResp : Except String (List Workflow)
  dispatchResp : Except String Nat
  listRunsResp : Nat → Except String (Option Run)
  nowAt : Nat → Int
  getRunResp : Nat → Nat → Except String Run

/-- JS `s.endsWith(suffix)`. -/
def jsEndsWith (s suffix : String) : Bool :=
  suffix.data.isSuffixOf s.data

/-- Split a character list at every occurrence of `sep`, JS
`s.split(sep)` for a one-character separator: `"a/b" ↦ ["a","b"]`,
`"ab" ↦ ["ab"]`, `"a/" ↦ ["a",""]`. -/
def splitOnChar (sep : Char) : List Char → List (List Char)
  | [] => [[]]
  | c :: cs =>
    if c = sep then [] :: splitOnChar sep cs
    else
      match splitOnChar sep cs with
      | [] => [[c]]
      | g :: gs => (c :: g) :: gs

/-- JS `s.split('/')`. -/
def jsSplitSlash (s : String) : List String :=
  (splitOnChar '/' s.data).map fun l => String.mk l

/-- First decomposition of a character list around the pattern `pat`:
`firstSplit pat l = some (pre, post)` when `l = pre ++ pat ++ post` with the
earliest possible `pre`, and `none` when `pat` (assumed nonempty) does not
occur in `l`. -/
def firstSplit (pat : List Char) : List Char → Option (List Char × List Char)
  | [] => none
  | c :: cs =>
    if pat.isPrefixOf (c :: cs) then some ([], (c :: cs).drop pat.length)
    else
      match firstSplit pat cs with
      | some (pre, post) => some (c :: pre, post)
      | none => none

/-- JS `s.replace(pat, '')` for a plain (non-regex, nonempty) pattern string:
removes the FIRST occurrence of `pat` anywhere in `s`, and returns `s`
unchanged when `pat` does not occur. -/
def jsReplaceFirst (s pat : String) : String :=
  match firstSplit pat.data s.data with
  | some (pre, post) => String.mk (pre ++ post)
  | none => s

/-- The combined matching predicate of the workflow locator
(`workflows.find(...)` in `src/main.ts`): display name, numeric id rendered
as a string, path suffix after a `/`, or exact path. -/
def matchesWorkflow (workflowRef : String) (w : Workflow) : Bool :=
  w.name == workflowRef ||
  Nat.repr w.id == workflowRef ||
  jsEndsWith w.path ("/" ++ workflowRef) ||
  w.path == workflowRef

/-- JS template rendering of a possibly-undefined string. -/
def optRender (o : Option String) : String :=
  o.getD "undefined"

/-- Message of the error thrown when no workflow matches. -/
def notFoundMsg (workflowRef : String) (owner repo : Option String) : String :=
  "Unable to find workflow '" ++ workflowRef ++ "' in " ++
    optRender owner ++ "/" ++ optRender repo ++ " 😥"

/-- Message of the error thrown when correlation exhausts its attempts. -/
def timeoutMsg : String := "Timed out waiting for workflow run to start"

/-- The suffix the top-level catch recognizes as a benign disabled-workflow
rejection. -/
def disabledSuffix : String := "a disabled workflow"

/-- The `maxAttempts` constant of the correlation loop. -/
def maxAttempts : Nat := 30

/-- Resolved ref: `core.getInput('ref') || github.context.ref`. -/
def resolvedRef (env : Env) : String :=
  if env.inputRef = "" then env.contextRef else env.inputRef

/-- Resolved owner: first component of `repo.split('/')` when the `repo`
input is set (truthy), else the ambient owner. -/
def resolvedOwner (env : Env) : Option String :=
  if env.inputRepo = "" then some env.contextOwner
  else (jsSplitSlash env.inputRepo)[0]?

/-- Resolved repo: second component of `repo.split('/')` when the `repo`
input is set (possibly `undefined`), else the ambient repo. -/
def resolvedRepo (env : Env) : Option String :=
  if env.inputRepo = "" then some env.contextRepo
  else (jsSplitSlash env.inputRepo)[1]?

/-- The dispatch-inputs value: `{}` when the `inputs` string is empty
(falsy), otherwise the result of `JSON.parse` on it. -/
def effInputs (env : Env) : Except String Json :=
  if env.inputInputs = "" then Except.ok (Json.obj [])
  else env.parseJson env.inputInputs

/-- The top-level catch handler: an error message ending in
`"a disabled workflow"` logs a warning and returns success; any other
message is passed verbatim to `core.setFailed`.  Outputs and trace
accumulated before the throw are kept as they are. -/
def handleError (trace : List ApiCall) (outputs : List (String × OutVal))
    (msg : String) : RunResult :=
  if jsEndsWith msg disabledSuffix then
    { outcome := Outcome.success, warned := true, outputs := outputs, trace := trace }
  else
    { outcome := Outcome.failed msg, warned := false, outputs := outputs, trace := trace }

/-- The correlation loop
(`while (!workflowRun && attempts < maxAttempts) ...`), with `remaining`
the attempts still allowed and `attempts` the count already used (the
caller maintains `remaining + attempts = maxAttempts`).  Returns the
listRuns calls issued and either the accepted run, `none` when the
attempts were exhausted, or the message of an API error. -/
def correlateAux (env : Env) (owner repo : Option String) (workflowId : Nat)
    (branch : String) : Nat → Nat → List ApiCall × Except String (Option Run)
  | 0, _ => ([], Except.ok none)
  | remaining + 1, attempts =>
    let call := ApiCall.listRuns owner repo workflowId branch 1
    match env.listRunsResp attempts with
    | Except.error e => ([call], Except.error e)
    | Except.ok none =>
      let rest := correlateAux env owner repo workflowId branch remaining (attempts + 1)
      (call :: rest.1, rest.2)
    | Except.ok (some latestRun) =>
      if latestRun.created_at > env.nowAt attempts - 60000 then
        ([call], Except.ok (some latestRun))
      else
        let rest := correlateAux env owner repo workflowId branch remaining (attempts + 1)
        (call :: rest.1, rest.2)

/-- The completion-poll loop (`while (workflowRun.status !== 'completed')`),
with explicit `fuel`; `iter` indexes the `getRun` responses.  Returns the
getRun calls issued and either the final snapshot, `none` when the fuel ran
out with the loop still going, or the message of an API error. -/
def pollAux (env : Env) (owner repo : Option String) :
    Nat → Nat → Run → List ApiCall × Except String (Option Run)
  | fuel, iter, workflowRun =>
    if workflowRun.status = "completed" then ([], Except.ok (some workflowRun))
    else
      match fuel with
      | 0 => ([], Except.ok none)
      | fuel' + 1 =>
        let call := ApiCall.getRun owner repo workflowRun.id
        match env.getRunResp iter workflowRun.id with
        | Except.error e => ([call], Except.error e)
        | Except.ok next =>
          let rest := pollAux env owner repo fuel' (iter + 1) next
          (call :: rest.1, rest.2)

/-- The `listRepoWorkflows` call of one invocation. -/
def listWorkflowsCall (env : Env) : ApiCall :=
  ApiCall.listWorkflows (resolvedOwner env) (resolvedRepo env)

/-- The `workflow_dispatch` call of one invocation. -/
def dispatchCall (env : Env) (fw : Workflow) (inputs : Json) : ApiCall :=
  ApiCall.dispatch (resolvedOwner env) (resolvedRepo env) fw.id (resolvedRef env) inputs

/-- The branch the correlation loop filters on:
`ref.replace('refs/heads/', '')`. -/
def runBranch (env : Env) : String :=
  jsReplaceFirst (resolvedRef env) "refs/heads/"

/-- The correlation loop of one invocation, started with `attempts = 0`. -/
def theCorrelate (env : Env) (fw : Workflow) : List ApiCall × Except String (Option Run) :=
  correlateAux env (resolvedOwner env) (resolvedRepo env) fw.id (runBranch env) maxAttempts 0

/-- The completion-poll loop of one invocation, started on the correlated
snapshot. -/
def thePoll (env : Env) (fuel : Nat) (wr : Run) : List ApiCall × Except String (Option Run) :=
  pollAux env (resolvedOwner env) (resolvedRepo env) fuel 0 wr

/-- The three run outputs set on completion, from the final snapshot. -/
def runOutputs (finalRun : Run) : List (String × OutVal) :=
  [("workflow_run_id", OutVal.num finalRun.id),
   ("workflow_run_status", OutVal.str finalRun.status),
   ("workflow_run_conclusion",
     match finalRun.conclusion with
     | some c => OutVal.str c
     | none => OutVal.null)]

/-- The whole of `run()` from `src/main.ts`, as a function of the
environment (and the poll fuel). -/
def runMain (fuel : Nat) (env : Env) : RunResult :=
  match effInputs env with
  | Except.error e => handleError [] [] e
  | Except.ok inputs =>
    match env.listWorkflowsResp with
    | Except.error e => handleError [listWorkflowsCall env] [] e
    | Except.ok workflows =>
      match workflows.find? (matchesWorkflow env.inputWorkflow) with
      | none =>
        handleError [listWorkflowsCall env] []
          (notFoundMsg env.inputWorkflow (resolvedOwner env) (resolvedRepo env))
      | some foundWorkflow =>
        match env.dispatchResp with
        | Except.error e =>
          handleError [listWorkflowsCall env, dispatchCall env foundWorkflow inputs] [] e
        | Except.ok _status =>
          let outs := [("workflowId", OutVal.num foundWorkflow.id)]
          let trace1 := listWorkflowsCall env :: dispatchCall env foundWorkflow inputs ::
            (theCorrelate env foundWorkflow).1
          match (theCorrelate env foundWorkflow).2 with
          | Except.error e => handleError trace1 outs e
          | Except.ok none => handleError trace1 outs timeoutMsg
          | Except.ok (some workflowRun) =>
            let trace2 := trace1 ++ (thePoll env fuel workflowRun).1
            match (thePoll env fuel workflowRun).2 with
            | Except.error e => handleError trace2 outs e
            | Except.ok none =>
              { outcome := Outcome.stillPolling, warned := false,
                outputs := outs, trace := trace2 }
            | Except.ok (some finalRun) =>
              { outcome := Outcome.success, warned := false,
                outputs := outs ++ runOutputs finalRun,
                trace := trace2 }

/-- Spec-side reading (§4.4) of the branch derivation, for comparison with
the code's `jsReplaceFirst ref "refs/heads/"`: strip a LEADING
`refs/heads/` prefix when present, leave the ref unchanged otherwise. -/
def specBranchOfRef (s : String) : String :=
  if "refs/heads/".data.isPrefixOf s.data then
    String.mk (s.data.drop "refs/heads/".data.length)
  else s

/-- A sample workflow for concrete evaluations. -/
def wf1 : Workflow := { id := 42, name := "CI", path := ".github/workflows/ci.yml" }

/-- A sample in-progress run, created within the recency window. -/
def runA : Run := { id := 7, status := "in_progress", conclusion := none, created_at := 1000 }

/-- A sample already-completed run, created within the recency window. -/
def runDone : Run :=
  { id := 9, status := "completed", conclusion := some "success", created_at := 1000 }

/-- A concrete environment in which every phase succeeds: the `CI` workflow
is found, dispatch succeeds, `runA` is correlated on the first attempt, and
the first completion poll returns a completed snapshot. -/
def baseEnv : Env where
  inputWorkflow := "CI"
  inputToken := "t"
  inputRef := "main"
  inputRepo := ""
  inputInputs := ""
  contextRef := "refs/heads/dev"
  contextOwner := "octo"
  contextRepo := "repo"
  parseJson := fun _ => Except.error "Unexpected token"
  listWorkflowsResp := Except.ok [wf1]
  dispatchResp := Except.ok 204
  listRunsResp := fun _ => Except.ok (some runA)
  nowAt := fun _ => 1000
  getRunResp := fun _ i =>
    Except.ok { id := i, status := "completed", conclusion := some "success", created_at := 1000 }

/-- Environment whose run listing always errors with a message ending in
`"a disabled workflow"`, after a successful dispatch. -/
def envDisabledLate : Env :=
  { baseEnv with
    listRunsResp := fun _ => Except.error "This operation refers to a disabled workflow" }

/-- Environment whose run listing always returns an empty page: correlation
times out. -/
def envTimeout : Env :=
  { baseEnv with listRunsResp := fun _ => Except.ok none }

/-- Environment with an unset (empty) `inputs` string whose JSON parser
rejects every string, the empty one included. -/
def envEmptyInputs : Env :=
  { baseEnv with parseJson := fun _ => Except.error "Unexpected end of JSON input" }

/-- Environment with a malformed nonempty `inputs` string. -/
def envBadInputs : Env := { baseEnv with inputInputs := "\x7bbad json" }

/-- Environment whose resolved ref contains `refs/heads/` in the middle but
not as a leading prefix. -/
def envMidRef : Env := { baseEnv with inputRef := "a-refs/heads/b" }

/-- Environment whose identifier matches no workflow in the listing. -/
def envNotFound : Env := { baseEnv with inputWorkflow := "zzz" }

/-- Environment whose correlated run is already completed at correlation
time. -/
def envDoneAtCorrelation : Env :=
  { baseEnv with listRunsResp := fun _ => Except.ok (some runDone) }

/-- Environment with a `repo` input that contains no `/`. -/
def envRepoNoSlash : Env := { baseEnv with inputRepo := "solo" }

/-! ### Helper lemmas -/

/-- The catch handler never touches the trace. -/
theorem handleError_trace (t : List ApiCall) (o : List (String × OutVal)) (m : String) :
    (handleError t o m).trace = t := by
  unfold handleError
  split <;> rfl

/-- The catch handler never adds or removes outputs. -/
theorem handleError_outputs (t : List ApiCall) (o : List (String × OutVal)) (m : String) :
    (handleError t o m).outputs = o := by
  unfold handleError
  split <;> rfl

/-- A message ending in the `😥` mark can never end in `"a disabled
workflow"`. -/
theorem jsEndsWith_mark_not_disabled (s : String) :
    jsEndsWith (s ++ " 😥") disabledSuffix = false := by
  rw [Bool.eq_false_iff]
  intro h
  unfold jsEndsWith disabledSuffix at h
  rw [List.isSuffixOf_iff_suffix] at h
  obtain ⟨t, ht⟩ := h
  have hlast := congrArg List.getLast? ht
  rw [List.getLast?_append, String.data_append, List.getLast?_append] at hlast
  simp [Option.or, show ("a disabled workflow" : String).data.getLast? = some 'w' from rfl,
    show (" 😥" : String).data.getLast? = some '😥' from rfl] at hlast

/-- Unfolding: exhausted correlation budget. -/
theorem correlateAux_zero (env : Env) (owner repo : Option String) (wid : Nat)
    (branch : String) (att : Nat) :
    correlateAux env owner repo wid branch 0 att = ([], Except.ok none) := rfl

/-- Unfolding: the listing call errors. -/
theorem correlateAux_succ_error (env : Env) (owner repo : Option String) (wid : Nat)
    (branch : String) (n att : Nat) (e : String)
    (h : env.listRunsResp att = Except.error e) :
    correlateAux env owner repo wid branch (n + 1) att =
      ([ApiCall.listRuns owner repo wid branch 1], Except.error e) := by
  rw [correlateAux, h]

/-- Unfolding: the listing page is empty, so the loop sleeps and retries. -/
theorem correlateAux_succ_empty (env : Env) (owner repo : Option String) (wid : Nat)
    (branch : String) (n att : Nat)
    (h : env.listRunsResp att = Except.ok none) :
    correlateAux env owner repo wid branch (n + 1) att =
      (ApiCall.listRuns owner repo wid branch 1 ::
         (correlateAux env owner repo wid branch n (att + 1)).1,
       (correlateAux env owner repo wid branch n (att + 1)).2) := by
  rw [correlateAux, h]

/-- Unfolding: the latest run is within the recency window and is accepted. -/
theorem correlateAux_succ_accept (env : Env) (owner repo : Option String) (wid : Nat)
    (branch : String) (n att : Nat) (r : Run)
    (h : env.listRunsResp att = Except.ok (some r))
    (he : r.created_at > env.nowAt att - 60000) :
    correlateAux env owner repo wid branch (n + 1) att =
      ([ApiCall.listRuns owner repo wid branch 1], Except.ok (some r)) := by
  rw [correlateAux, h]
  show (if r.created_at > env.nowAt att - 60000 then _
    else (ApiCall.listRuns owner repo wid branch 1 ::
           (correlateAux env owner repo wid branch n (att + 1)).1,
         (correlateAux env owner repo wid branch n (att + 1)).2)) = _
  rw [if_pos he]

/-- Unfolding: the latest run is stale, so the loop sleeps and retries. -/
theorem correlateAux_succ_stale (env : Env) (owner repo : Option String) (wid : Nat)
    (branch : String) (n att : Nat) (r : Run)
    (h : env.listRunsResp att = Except.ok (some r))
    (he : ¬ r.created_at > env.nowAt att - 60000) :
    correlateAux env owner repo wid branch (n + 1) att =
      (ApiCall.listRuns owner repo wid branch 1 ::
         (correlateAux env owner repo wid branch n (att + 1)).1,
       (correlateAux env owner repo wid branch n (att + 1)).2) := by
  rw [correlateAux, h]
  show (if r.created_at > env.nowAt att - 60000 then
      ([ApiCall.listRuns owner repo wid branch 1], Except.ok (some r)) else _) = _
  rw [if_neg he]

/-- Every call issued by the correlation loop is the same `listRuns` call. -/
theorem correlateAux_calls (env : Env) (owner repo : Option String) (wid : Nat)
    (branch : String) :
    ∀ rem att c, c ∈ (correlateAux env owner repo wid branch rem att).1 →
      c = ApiCall.listRuns owner repo wid branch 1 := by
  intro rem
  induction rem with
  | zero => intro att c hc; simp [correlateAux_zero] at hc
  | succ n ih =>
    intro att c hc
    rcases hr : env.listRunsResp att with e | (_ | r)
    · rw [correlateAux_succ_error env owner repo wid branch n att e hr] at hc
      simp at hc
      exact hc
    · rw [correlateAux_succ_empty env owner repo wid branch n att hr] at hc
      simp at hc
      rcases hc with hc | hc
      · exact hc
      · exact ih (att + 1) c hc
    · by_cases he : r.created_at > env.nowAt att - 60000
      · rw [correlateAux_succ_accept env owner repo wid branch n att r hr he] at hc
        simp at hc
        exact hc
      · rw [correlateAux_succ_stale env owner repo wid branch n att r hr he] at hc
        simp at hc
        rcases hc with hc | hc
        · exact hc
        · exact ih (att + 1) c hc

/-- If the correlation loop finds every attempt ineligible (empty page or a
stale latest run, never an API error), it exhausts its budget and returns
`none`. -/
theorem correlateAux_exhaust (env : Env) (owner repo : Option String) (wid : Nat)
    (branch : String) :
    ∀ rem att,
      (∀ k, att ≤ k → k < att + rem → ∃ o, env.listRunsResp k = Except.ok o) →
      (∀ k, att ≤ k → k < att + rem → ∀ r, env.listRunsResp k = Except.ok (some r) →
        r.created_at ≤ env.nowAt k - 60000) →
      (correlateAux env owner repo wid branch rem att).2 = Except.ok none := by
  intro rem
  induction rem with
  | zero => intro att _ _; rfl
  | succ n ih =>
    intro att hok hstale
    rcases hr : env.listRunsResp att with e | (_ | r)
    · exfalso
      obtain ⟨o, ho⟩ := hok att (Nat.le_refl att) (by omega)
      rw [hr] at ho
      exact Except.noConfusion ho
    · rw [correlateAux_succ_empty env owner repo wid branch n att hr]
      exact ih (att + 1) (fun k h1 h2 => hok k (by omega) (by omega))
        (fun k h1 h2 => hstale k (by omega) (by omega))
    · have hs := hstale att (Nat.le_refl att) (by omega) r hr
      have hng : ¬ r.created_at > env.nowAt att - 60000 := by omega
      rw [correlateAux_succ_stale env owner repo wid branch n att r hr hng]
      exact ih (att + 1) (fun k h1 h2 => hok k (by omega) (by omega))
        (fun k h1 h2 => hstale k (by omega) (by omega))

/-- An API error surfaced by the correlation loop is verbatim one of the
`listRuns` responses. -/
theorem correlateAux_error (env : Env) (owner repo : Option String) (wid : Nat)
    (branch : String) :
    ∀ rem att e, (correlateAux env owner repo wid branch rem att).2 = Except.error e →
      ∃ k, env.listRunsResp k = Except.error e := by
  intro rem
  induction rem with
  | zero => intro att e h; exact absurd h (by simp [correlateAux_zero])
  | succ n ih =>
    intro att e h
    rcases hr : env.listRunsResp att with e' | (_ | r)
    · rw [correlateAux_succ_error env owner repo wid branch n att e' hr] at h
      simp at h
      exact ⟨att, by rw [hr, h]⟩
    · rw [correlateAux_succ_empty env owner repo wid branch n att hr] at h
      exact ih (att + 1) e h
    · by_cases he : r.created_at > env.nowAt att - 60000
      · rw [correlateAux_succ_accept env owner repo wid branch n att r hr he] at h
        exact absurd h (by simp)
      · rw [correlateAux_succ_stale env owner repo wid branch n att r hr he] at h
        exact ih (att + 1) e h

/-- Unfolding: the held snapshot is already terminal, the loop body never
runs. -/
theorem pollAux_done (env : Env) (o r : Option String) (fuel iter : Nat) (wr : Run)
    (h : wr.status = "completed") :
    pollAux env o r fuel iter wr = ([], Except.ok (some wr)) := by
  cases fuel with
  | zero => rw [pollAux, if_pos h]
  | succ n => rw [pollAux, if_pos h]

/-- Unfolding: fuel exhausted while the run is still not terminal. -/
theorem pollAux_zero (env : Env) (o r : Option String) (iter : Nat) (wr : Run)
    (h : ¬ wr.status = "completed") :
    pollAux env o r 0 iter wr = ([], Except.ok none) := by
  rw [pollAux, if_neg h]

/-- Unfolding: the re-fetch call errors. -/
theorem pollAux_succ_error (env : Env) (o r : Option String) (n iter : Nat) (wr : Run)
    (e : String) (h : ¬ wr.status = "completed")
    (hg : env.getRunResp iter wr.id = Except.error e) :
    pollAux env o r (n + 1) iter wr = ([ApiCall.getRun o r wr.id], Except.error e) := by
  rw [pollAux, if_neg h, hg]

/-- Unfolding: the re-fetch succeeds and the held snapshot is replaced. -/
theorem pollAux_succ_step (env : Env) (o r : Option String) (n iter : Nat) (wr next : Run)
    (h : ¬ wr.status = "completed")
    (hg : env.getRunResp iter wr.id = Except.ok next) :
    pollAux env o r (n + 1) iter wr =
      (ApiCall.getRun o r wr.id :: (pollAux env o r n (iter + 1) next).1,
       (pollAux env o r n (iter + 1) next).2) := by
  rw [pollAux, if_neg h, hg]

/-- Every call issued by the completion-poll loop is a `getRun` call. -/
theorem pollAux_calls (env : Env) (o r : Option String) :
    ∀ fuel iter wr c, c ∈ (pollAux env o r fuel iter wr).1 →
      ∃ i, c = ApiCall.getRun o r i := by
  intro fuel
  induction fuel with
  | zero =>
    intro iter wr c hc
    by_cases h : wr.status = "completed"
    · rw [pollAux_done env o r 0 iter wr h] at hc
      simp at hc
    · rw [pollAux_zero env o r iter wr h] at hc
      simp at hc
  | succ n ih =>
    intro iter wr c hc
    by_cases h : wr.status = "completed"
    · rw [pollAux_done env o r (n + 1) iter wr h] at hc
      simp at hc
    · rcases hg : env.getRunResp iter wr.id with e | next
      · rw [pollAux_succ_error env o r n iter wr e h hg] at hc
        simp at hc
        exact ⟨wr.id, hc⟩
      · rw [pollAux_succ_step env o r n iter wr next h hg] at hc
        simp at hc
        rcases hc with hc | hc
        · exact ⟨wr.id, hc⟩
        · exact ih (iter + 1) next c hc

/-- When the API returns the run that was asked for (every `getRun`
response carries the requested id), a terminating completion poll ends on a
`"completed"` snapshot whose id is the starting snapshot's id, and every
call it made re-fetched exactly that id. -/
theorem pollAux_ok (env : Env) (o r : Option String)
    (hid : ∀ k i run, env.getRunResp k i = Except.ok run → run.id = i) :
    ∀ fuel iter wr tp fin, pollAux env o r fuel iter wr = (tp, Except.ok (some fin)) →
      fin.status = "completed" ∧ fin.id = wr.id ∧
      ∀ c ∈ tp, c = ApiCall.getRun o r wr.id := by
  intro fuel
  induction fuel with
  | zero =>
    intro iter wr tp fin hp
    by_cases h : wr.status = "completed"
    · rw [pollAux_done env o r 0 iter wr h] at hp
      rw [Prod.mk.injEq] at hp
      obtain ⟨h1, h2⟩ := hp
      injection h2 with h3
      injection h3 with h4
      subst h4
      exact ⟨h, rfl, by rw [← h1]; intro c hc; simp at hc⟩
    · rw [pollAux_zero env o r iter wr h] at hp
      rw [Prod.mk.injEq] at hp
      obtain ⟨-, h2⟩ := hp
      injection h2 with h3
      exact absurd h3 (by simp)
  | succ n ih =>
    intro iter wr tp fin hp
    by_cases h : wr.status = "completed"
    · rw [pollAux_done env o r (n + 1) iter wr h] at hp
      rw [Prod.mk.injEq] at hp
      obtain ⟨h1, h2⟩ := hp
      injection h2 with h3
      injection h3 with h4
      subst h4
      exact ⟨h, rfl, by rw [← h1]; intro c hc; simp at hc⟩
    · rcases hg : env.getRunResp iter wr.id with e | next
      · rw [pollAux_succ_error env o r n iter wr e h hg] at hp
        rw [Prod.mk.injEq] at hp
        obtain ⟨-, h2⟩ := hp
        exact absurd h2 (by simp)
      · rw [pollAux_succ_step env o r n iter wr next h hg] at hp
        rw [Prod.mk.injEq] at hp
        obtain ⟨h1, h2⟩ := hp
        have hrec : pollAux env o r n (iter + 1) next =
            ((pollAux env o r n (iter + 1) next).1, Except.ok (some fin)) := by
          rw [← h2]
        obtain ⟨hst, hid', hcalls⟩ := ih (iter + 1) next _ fin hrec
        have hnid : next.id = wr.id := hid iter wr.id next hg
        refine ⟨hst, by rw [hid', hnid], ?_⟩
        intro c hc
        rw [← h1] at hc
        rcases List.mem_cons.mp hc with hc | hc
        · exact hc
        · rw [hcalls c hc, hnid]

/-- An API error surfaced by the completion poll is verbatim one of the
`getRun` responses. -/
theorem pollAux_error (env : Env) (o r : Option String) :
    ∀ fuel iter wr e, (pollAux env o r fuel iter wr).2 = Except.error e →
      ∃ k i, env.getRunResp k i = Except.error e := by
  intro fuel
  induction fuel with
  | zero =>
    intro iter wr e hp
    by_cases h : wr.status = "completed"
    · rw [pollAux_done env o r 0 iter wr h] at hp
      exact absurd hp (by simp)
    · rw [pollAux_zero env o r iter wr h] at hp
      exact absurd hp (by simp)
  | succ n ih =>
    intro iter wr e hp
    by_cases h : wr.status = "completed"
    · rw [pollAux_done env o r (n + 1) iter wr h] at hp
      exact absurd hp (by simp)
    · rcases hg : env.getRunResp iter wr.id with e' | next
      · rw [pollAux_succ_error env o r n iter wr e' h hg] at hp
        simp at hp
        exact ⟨iter, wr.id, by rw [hg, hp]⟩
      · rw [pollAux_succ_step env o r n iter wr next h hg] at hp
        exact ih (iter + 1) next e hp

/-- Evaluation of `handleError` on a message that does end in the disabled suffix. -/
theorem handleError_disabled (t : List ApiCall) (o : List (String × OutVal)) (m : String)
    (h : jsEndsWith m disabledSuffix = true) :
    handleError t o m =
      { outcome := Outcome.success, warned := true, outputs := o, trace := t } := by
  simp [handleError, h]

/-- Evaluation of `handleError` on a message that does not end in the
disabled suffix. -/
theorem handleError_failed (t : List ApiCall) (o : List (String × OutVal)) (m : String)
    (h : jsEndsWith m disabledSuffix = false) :
    handleError t o m =
      { outcome := Outcome.failed m, warned := false, outputs := o, trace := t } := by
  simp [handleError, h]

/-- Unfolding `runMain`: malformed `inputs` JSON. -/
theorem runMain_parse_error (fuel : Nat) (env : Env) (e : String)
    (hj : effInputs env = Except.error e) :
    runMain fuel env = handleError [] [] e := by
  simp only [runMain, hj]

/-- Unfolding `runMain`: the workflow-listing call errors. -/
theorem runMain_listWorkflows_error (fuel : Nat) (env : Env) (v : Json) (e : String)
    (hj : effInputs env = Except.ok v)
    (hl : env.listWorkflowsResp = Except.error e) :
    runMain fuel env = handleError [listWorkflowsCall env] [] e := by
  simp only [runMain, hj, hl]

/-- Unfolding `runMain`: no workflow matches the identifier. -/
theorem runMain_not_found (fuel : Nat) (env : Env) (v : Json) (l : List Workflow)
    (hj : effInputs env = Except.ok v)
    (hl : env.listWorkflowsResp = Except.ok l)
    (hf : l.find? (matchesWorkflow env.inputWorkflow) = none) :
    runMain fuel env = handleError [listWorkflowsCall env] []
      (notFoundMsg env.inputWorkflow (resolvedOwner env) (resolvedRepo env)) := by
  simp only [runMain, hj, hl, hf]

/-- Unfolding `runMain`: the dispatch call errors. -/
theorem runMain_dispatch_error (fuel : Nat) (env : Env) (v : Json) (l : List Workflow)
    (fw : Workflow) (e : String)
    (hj : effInputs env = Except.ok v)
    (hl : env.listWorkflowsResp = Except.ok l)
    (hf : l.find? (matchesWorkflow env.inputWorkflow) = some fw)
    (hd : env.dispatchResp = Except.error e) :
    runMain fuel env =
      handleError [listWorkflowsCall env, dispatchCall env fw v] [] e := by
  simp only [runMain, hj, hl, hf, hd]

/-- Unfolding `runMain`: correlation surfaces an API error. -/
theorem runMain_corr_error (fuel : Nat) (env : Env) (v : Json) (l : List Workflow)
    (fw : Workflow) (st : Nat) (e : String)
    (hj : effInputs env = Except.ok v)
    (hl : env.listWorkflowsResp = Except.ok l)
    (hf : l.find? (matchesWorkflow env.inputWorkflow) = some fw)
    (hd : env.dispatchResp = Except.ok st)
    (hc : (theCorrelate env fw).2 = Except.error e) :
    runMain fuel env = handleError
      (listWorkflowsCall env :: dispatchCall env fw v :: (theCorrelate env fw).1)
      [("workflowId", OutVal.num fw.id)] e := by
  simp only [runMain, hj, hl, hf, hd, hc]

/-- Unfolding `runMain`: correlation exhausts its attempts. -/
theorem runMain_corr_timeout (fuel : Nat) (env : Env) (v : Json) (l : List Workflow)
    (fw : Workflow) (st : Nat)
    (hj : effInputs env = Except.ok v)
    (hl : env.listWorkflowsResp = Except.ok l)
    (hf : l.find? (matchesWorkflow env.inputWorkflow) = some fw)
    (hd : env.dispatchResp = Except.ok st)
    (hc : (theCorrelate env fw).2 = Except.ok none) :
    runMain fuel env = handleError
      (listWorkflowsCall env :: dispatchCall env fw v :: (theCorrelate env fw).1)
      [("workflowId", OutVal.num fw.id)] timeoutMsg := by
  simp only [runMain, hj, hl, hf, hd, hc]

/-- Unfolding `runMain`: the completion poll surfaces an API error. -/
theorem runMain_poll_error (fuel : Nat) (env : Env) (v : Json) (l : List Workflow)
    (fw : Workflow) (st : Nat) (wr : Run) (e : String)
    (hj : effInputs env = Except.ok v)
    (hl : env.listWorkflowsResp = Except.ok l)
    (hf : l.find? (matchesWorkflow env.inputWorkflow) = some fw)
    (hd : env.dispatchResp = Except.ok st)
    (hc : (theCorrelate env fw).2 = Except.ok (some wr))
    (hp : (thePoll env fuel wr).2 = Except.error e) :
    runMain fuel env = handleError
      (listWorkflowsCall env :: dispatchCall env fw v ::
        ((theCorrelate env fw).1 ++ (thePoll env fuel wr).1))
      [("workflowId", OutVal.num fw.id)] e := by
  simp only [runMain, hj, hl, hf, hd, hc, hp, List.cons_append]

/-- Unfolding `runMain`: the completion poll is still running when the fuel
runs out. -/
theorem runMain_still_polling (fuel : Nat) (env : Env) (v : Json) (l : List Workflow)
    (fw : Workflow) (st : Nat) (wr : Run)
    (hj : effInputs env = Except.ok v)
    (hl : env.listWorkflowsResp = Except.ok l)
    (hf : l.find? (matchesWorkflow env.inputWorkflow) = some fw)
    (hd : env.dispatchResp = Except.ok st)
    (hc : (theCorrelate env fw).2 = Except.ok (some wr))
    (hp : (thePoll env fuel wr).2 = Except.ok none) :
    runMain fuel env =
      { outcome := Outcome.stillPolling, warned := false,
        outputs := [("workflowId", OutVal.num fw.id)],
        trace := listWorkflowsCall env :: dispatchCall env fw v ::
          ((theCorrelate env fw).1 ++ (thePoll env fuel wr).1) } := by
  simp only [runMain, hj, hl, hf, hd, hc, hp, List.cons_append]

/-- Unfolding `runMain`: the completion poll reaches a terminal snapshot. -/
theorem runMain_success (fuel : Nat) (env : Env) (v : Json) (l : List Workflow)
    (fw : Workflow) (st : Nat) (wr fin : Run)
    (hj : effInputs env = Except.ok v)
    (hl : env.listWorkflowsResp = Except.ok l)
    (hf : l.find? (matchesWorkflow env.inputWorkflow) = some fw)
    (hd : env.dispatchResp = Except.ok st)
    (hc : (theCorrelate env fw).2 = Except.ok (some wr))
    (hp : (thePoll env fuel wr).2 = Except.ok (some fin)) :
    runMain fuel env =
      { outcome := Outcome.success, warned := false,
        outputs := ("workflowId", OutVal.num fw.id) :: runOutputs fin,
        trace := listWorkflowsCall env :: dispatchCall env fw v ::
          ((theCorrelate env fw).1 ++ (thePoll env fuel wr).1) } := by
  simp only [runMain, hj, hl, hf, hd, hc, hp, List.cons_append, List.singleton_append,
    List.nil_append]

/-- A separator-free character list is returned whole by `splitOnChar`. -/
theorem splitOnChar_no_sep (sep : Char) :
    ∀ l, (∀ c ∈ l, c ≠ sep) → splitOnChar sep l = [l] := by
  intro l
  induction l with
  | nil => intro _; rfl
  | cons c cs ih =>
    intro h
    rw [splitOnChar, if_neg (h c (List.mem_cons_self c cs)),
      ih (fun x hx => h x (List.mem_cons_of_mem c hx))]

/-- A slash-free string is returned whole by `jsSplitSlash`. -/
theorem jsSplitSlash_no_slash (s : String) (h : ∀ c ∈ s.data, c ≠ '/') :
    jsSplitSlash s = [s] := by
  unfold jsSplitSlash
  rw [splitOnChar_no_sep '/' s.data h]
  rfl

/-- Unfolding: the pattern sits at the very front. -/
theorem firstSplit_cons_pos (pat : List Char) (c : Char) (cs : List Char)
    (hp : pat.isPrefixOf (c :: cs) = true) :
    firstSplit pat (c :: cs) = some ([], (c :: cs).drop pat.length) := by
  rw [firstSplit, if_pos hp]

/-- Unfolding: no match at the front, a match further right. -/
theorem firstSplit_cons_neg_some (pat : List Char) (c : Char) (cs pre post : List Char)
    (hp : ¬ pat.isPrefixOf (c :: cs) = true)
    (hfs : firstSplit pat cs = some (pre, post)) :
    firstSplit pat (c :: cs) = some (c :: pre, post) := by
  rw [firstSplit, if_neg hp, hfs]

/-- Unfolding: no match at the front nor further right. -/
theorem firstSplit_cons_neg_none (pat : List Char) (c : Char) (cs : List Char)
    (hp : ¬ pat.isPrefixOf (c :: cs) = true)
    (hfs : firstSplit pat cs = none) :
    firstSplit pat (c :: cs) = none := by
  rw [firstSplit, if_neg hp, hfs]

/-- A boolean prefix test yields the decomposition around the prefix. -/
theorem prefix_decomp (pat l : List Char) (hp : pat.isPrefixOf l = true) :
    l = pat ++ l.drop pat.length := by
  obtain ⟨t, ht⟩ := List.isPrefixOf_iff_prefix.mp hp
  rw [← ht, List.drop_left]

/-- Soundness of `firstSplit`: a returned decomposition really decomposes
the list around the pattern. -/
theorem firstSplit_sound (pat : List Char) :
    ∀ l pre post, firstSplit pat l = some (pre, post) → l = pre ++ pat ++ post := by
  intro l
  induction l with
  | nil => intro pre post h; simp [firstSplit] at h
  | cons c cs ih =>
    intro pre post h
    by_cases hp : pat.isPrefixOf (c :: cs) = true
    · rw [firstSplit_cons_pos pat c cs hp] at h
      injection h with h1
      rw [Prod.mk.injEq] at h1
      obtain ⟨h2, h3⟩ := h1
      rw [← h2, ← h3, List.nil_append]
      exact prefix_decomp pat (c :: cs) hp
    · rcases hfs : firstSplit pat cs with _ | ⟨pre', post'⟩
      · rw [firstSplit_cons_neg_none pat c cs hp hfs] at h
        exact absurd h (by simp)
      · rw [firstSplit_cons_neg_some pat c cs pre' post' hp hfs] at h
        injection h with h1
        rw [Prod.mk.injEq] at h1
        obtain ⟨h2, h3⟩ := h1
        rw [← h2, ← h3]
        have := ih pre' post' hfs
        rw [List.cons_append, List.cons_append, ← this]

/-- A string without any occurrence of the pattern is left unchanged by
the replace-first operation. -/
theorem jsReplaceFirst_no_occurrence (s pat : String)
    (h : ∀ pre post, s.data ≠ pre ++ pat.data ++ post) :
    jsReplaceFirst s pat = s := by
  unfold jsReplaceFirst
  rcases hfs : firstSplit pat.data s.data with _ | ⟨pre, post⟩
  · rfl
  · exact absurd (firstSplit_sound pat.data s.data pre post hfs) (h pre post)

/-- A nonempty leading pattern is found by `firstSplit` at position zero. -/
theorem firstSplit_of_leading (pat : List Char) (l : List Char) (hne : pat ≠ [])
    (hp : pat.isPrefixOf l = true) :
    firstSplit pat l = some ([], l.drop pat.length) := by
  rcases l with _ | ⟨c, cs⟩
  · rcases pat with _ | ⟨p, ps⟩
    · exact absurd rfl hne
    · simp [List.isPrefixOf] at hp
  · exact firstSplit_cons_pos pat c cs hp

/-- A pattern sitting at the very front is stripped by the replace-first operation. -/
theorem jsReplaceFirst_of_leading (s pat : String)
    (hne : pat.data ≠ [])
    (hp : pat.data.isPrefixOf s.data = true) :
    jsReplaceFirst s pat = String.mk (s.data.drop pat.data.length) := by
  unfold jsReplaceFirst
  rw [firstSplit_of_leading pat.data s.data hne hp]
  rfl

/-- Exhaustive case analysis of one invocation: every run of `runMain`
falls into exactly one of the nine control-flow exits of `run()`. -/
theorem runMain_cases (fuel : Nat) (env : Env) :
    (∃ e, effInputs env = Except.error e ∧
      runMain fuel env = handleError [] [] e) ∨
    (∃ v e, effInputs env = Except.ok v ∧ env.listWorkflowsResp = Except.error e ∧
      runMain fuel env = handleError [listWorkflowsCall env] [] e) ∨
    (∃ v l, effInputs env = Except.ok v ∧ env.listWorkflowsResp = Except.ok l ∧
      l.find? (matchesWorkflow env.inputWorkflow) = none ∧
      runMain fuel env = handleError [listWorkflowsCall env] []
        (notFoundMsg env.inputWorkflow (resolvedOwner env) (resolvedRepo env))) ∨
    (∃ v l fw e, effInputs env = Except.ok v ∧ env.listWorkflowsResp = Except.ok l ∧
      l.find? (matchesWorkflow env.inputWorkflow) = some fw ∧
      env.dispatchResp = Except.error e ∧
      runMain fuel env = handleError [listWorkflowsCall env, dispatchCall env fw v] [] e) ∨
    (∃ v l fw st e, effInputs env = Except.ok v ∧ env.listWorkflowsResp = Except.ok l ∧
      l.find? (matchesWorkflow env.inputWorkflow) = some fw ∧
      env.dispatchResp = Except.ok st ∧ (theCorrelate env fw).2 = Except.error e ∧
      runMain fuel env = handleError
        (listWorkflowsCall env :: dispatchCall env fw v :: (theCorrelate env fw).1)
        [("workflowId", OutVal.num fw.id)] e) ∨
    (∃ v l fw st, effInputs env = Except.ok v ∧ env.listWorkflowsResp = Except.ok l ∧
      l.find? (matchesWorkflow env.inputWorkflow) = some fw ∧
      env.dispatchResp = Except.ok st ∧ (theCorrelate env fw).2 = Except.ok none ∧
      runMain fuel env = handleError
        (listWorkflowsCall env :: dispatchCall env fw v :: (theCorrelate env fw).1)
        [("workflowId", OutVal.num fw.id)] timeoutMsg) ∨
    (∃ v l fw st wr e, effInputs env = Except.ok v ∧ env.listWorkflowsResp = Except.ok l ∧
      l.find? (matchesWorkflow env.inputWorkflow) = some fw ∧
      env.dispatchResp = Except.ok st ∧ (theCorrelate env fw).2 = Except.ok (some wr) ∧
      (thePoll env fuel wr).2 = Except.error e ∧
      runMain fuel env = handleError
        (listWorkflowsCall env :: dispatchCall env fw v ::
          ((theCorrelate env fw).1 ++ (thePoll env fuel wr).1))
        [("workflowId", OutVal.num fw.id)] e) ∨
    (∃ v l fw st wr, effInputs env = Except.ok v ∧ env.listWorkflowsResp = Except.ok l ∧
      l.find? (matchesWorkflow env.inputWorkflow) = some fw ∧
      env.dispatchResp = Except.ok st ∧ (theCorrelate env fw).2 = Except.ok (some wr) ∧
      (thePoll env fuel wr).2 = Except.ok none ∧
      runMain fuel env =
        { outcome := Outcome.stillPolling, warned := false,
          outputs := [("workflowId", OutVal.num fw.id)],
          trace := listWorkflowsCall env :: dispatchCall env fw v ::
            ((theCorrelate env fw).1 ++ (thePoll env fuel wr).1) }) ∨
    (∃ v l fw st wr fin, effInputs env = Except.ok v ∧ env.listWorkflowsResp = Except.ok l ∧
      l.find? (matchesWorkflow env.inputWorkflow) = some fw ∧
      env.dispatchResp = Except.ok st ∧ (theCorrelate env fw).2 = Except.ok (some wr) ∧
      (thePoll env fuel wr).2 = Except.ok (some fin) ∧
      runMain fuel env =
        { outcome := Outcome.success, warned := false,
          outputs := ("workflowId", OutVal.num fw.id) :: runOutputs fin,
          trace := listWorkflowsCall env :: dispatchCall env fw v ::
            ((theCorrelate env fw).1 ++ (thePoll env fuel wr).1) }) := by
  rcases hj : effInputs env with e | v
  · exact Or.inl ⟨e, rfl, runMain_parse_error fuel env e hj⟩
  · rcases hl : env.listWorkflowsResp with e | l
    · exact Or.inr (Or.inl ⟨v, e, rfl, rfl, runMain_listWorkflows_error fuel env v e hj hl⟩)
    · rcases hf : l.find? (matchesWorkflow env.inputWorkflow) with _ | fw
      · exact Or.inr (Or.inr (Or.inl ⟨v, l, rfl, rfl, hf,
          runMain_not_found fuel env v l hj hl hf⟩))
      · rcases hd : env.dispatchResp with e | st
        · exact Or.inr (Or.inr (Or.inr (Or.inl ⟨v, l, fw, e, rfl, rfl, hf, rfl,
            runMain_dispatch_error fuel env v l fw e hj hl hf hd⟩)))
        · rcases hc : (theCorrelate env fw).2 with e | (_ | wr)
          · exact Or.inr (Or.inr (Or.inr (Or.inr (Or.inl ⟨v, l, fw, st, e, rfl, rfl, hf, rfl, hc,
              runMain_corr_error fuel env v l fw st e hj hl hf hd hc⟩))))
          · exact Or.inr (Or.inr (Or.inr (Or.inr (Or.inr (Or.inl ⟨v, l, fw, st, rfl, rfl, hf,
              rfl, hc, runMain_corr_timeout fuel env v l fw st hj hl hf hd hc⟩)))))
          · rcases hp : (thePoll env fuel wr).2 with e | (_ | fin)
            · exact Or.inr (Or.inr (Or.inr (Or.inr (Or.inr (Or.inr (Or.inl
                ⟨v, l, fw, st, wr, e, rfl, rfl, hf, rfl, hc, hp,
                 runMain_poll_error fuel env v l fw st wr e hj hl hf hd hc hp⟩))))))
            · exact Or.inr (Or.inr (Or.inr (Or.inr (Or.inr (Or.inr (Or.inr (Or.inl
                ⟨v, l, fw, st, wr, rfl, rfl, hf, rfl, hc, hp,
                 runMain_still_polling fuel env v l fw st wr hj hl hf hd hc hp⟩)))))))
            · exact Or.inr (Or.inr (Or.inr (Or.inr (Or.inr (Or.inr (Or.inr (Or.inr
                ⟨v, l, fw, st, wr, fin, rfl, rfl, hf, rfl, hc, hp,
                 runMain_success fuel env v l fw st wr fin hj hl hf hd hc hp⟩)))))))

/-- The not-found message never triggers the disabled-workflow branch of
the catch handler. -/
theorem notFoundMsg_not_disabled (wref : String) (o r : Option String) :
    jsEndsWith (notFoundMsg wref o r) disabledSuffix = false :=
  jsEndsWith_mark_not_disabled
    ("Unable to find workflow '" ++ wref ++ "' in " ++ optRender o ++ "/" ++ optRender r)

/-! ### Claims -/

/-- C1: once a run is correlated, under the API contract that `getRun`
returns the run with the requested id, a terminating Completion Poller
re-fetched by exactly the correlated id on every iteration, stopped exactly
on a `"completed"` snapshot (stopping immediately when the correlated
snapshot was already completed), and set the three outputs
`workflow_run_id` (the correlated id), `workflow_run_status`
(`"completed"`), and `workflow_run_conclusion` (the final snapshot's
conclusion). -/
theorem c1_completion_poller (fuel : Nat) (env : Env) (v : Json) (l : List Workflow)
    (fw : Workflow) (st : Nat) (wr fin : Run)
    (hj : effInputs env = Except.ok v)
    (hl : env.listWorkflowsResp = Except.ok l)
    (hf : l.find? (matchesWorkflow env.inputWorkflow) = some fw)
    (hd : env.dispatchResp = Except.ok st)
    (hc : (theCorrelate env fw).2 = Except.ok (some wr))
    (hid : ∀ k i run, env.getRunResp k i = Except.ok run → run.id = i)
    (hp : (thePoll env fuel wr).2 = Except.ok (some fin)) :
    fin.status = "completed" ∧ fin.id = wr.id ∧
    (∀ c ∈ (thePoll env fuel wr).1,
      c = ApiCall.getRun (resolvedOwner env) (resolvedRepo env) wr.id) ∧
    (wr.status = "completed" → (thePoll env fuel wr).1 = []) ∧
    (runMain fuel env).outcome = Outcome.success ∧
    (runMain fuel env).outputs =
      [("workflowId", OutVal.num fw.id),
       ("workflow_run_id", OutVal.num wr.id),
       ("workflow_run_status", OutVal.str "completed"),
       ("workflow_run_conclusion",
         match fin.conclusion with
         | some c => OutVal.str c
         | none => OutVal.null)] := by
  have hpair : thePoll env fuel wr = ((thePoll env fuel wr).1, Except.ok (some fin)) := by
    rw [← hp]
  obtain ⟨hst, hidf, hcalls⟩ :=
    pollAux_ok env (resolvedOwner env) (resolvedRepo env) hid fuel 0 wr
      ((thePoll env fuel wr).1) fin hpair
  refine ⟨hst, hidf, hcalls, ?_, ?_, ?_⟩
  · intro hcomp
    have h1 : thePoll env fuel wr = ([], Except.ok (some wr)) :=
      pollAux_done env (resolvedOwner env) (resolvedRepo env) fuel 0 wr hcomp
    rw [h1]
  · rw [runMain_success fuel env v l fw st wr fin hj hl hf hd hc hp]
  · rw [runMain_success fuel env v l fw st wr fin hj hl hf hd hc hp]
    simp [runOutputs, hidf, hst]

/-- Witness for C1 at a concrete environment. -/
theorem c1_completion_poller_witness :
    (runMain 1 baseEnv).outcome = Outcome.success ∧
    (runMain 1 baseEnv).outputs =
      [("workflowId", OutVal.num 42), ("workflow_run_id", OutVal.num 7),
       ("workflow_run_status", OutVal.str "completed"),
       ("workflow_run_conclusion", OutVal.str "success")] := by
  have h := c1_completion_poller 1 baseEnv (Json.obj []) [wf1] wf1 204 runA
    { id := 7, status := "completed", conclusion := some "success", created_at := 1000 }
    rfl rfl rfl rfl rfl (fun k i run hk => by cases hk; rfl) rfl
  exact ⟨h.2.2.2.2.1, h.2.2.2.2.2⟩

/-- C2: the Run Correlator never accepts a candidate run whose `created_at`
is older than 60 seconds before the check-time `Date.now()` of the
accepting attempt: every accepted run was returned by some attempt `k`
within the budget and satisfies `created_at > nowAt k - 60000`, hence is
not older than the window. -/
theorem c2_correlator_recency (env : Env) (owner repo : Option String)
    (workflowId : Nat) (branch : String) (rem att : Nat) (t : List ApiCall) (r : Run)
    (h : correlateAux env owner repo workflowId branch rem att = (t, Except.ok (some r))) :
    ∃ k, att ≤ k ∧ k < att + rem ∧ env.listRunsResp k = Except.ok (some r) ∧
      r.created_at > env.nowAt k - 60000 ∧ ¬ r.created_at < env.nowAt k - 60000 := by
  induction rem generalizing att t with
  | zero =>
    rw [correlateAux_zero] at h
    rw [Prod.mk.injEq] at h
    obtain ⟨-, h2⟩ := h
    exact absurd h2 (by simp)
  | succ n ih =>
    rcases hr : env.listRunsResp att with e | (_ | rr)
    · rw [correlateAux_succ_error env owner repo workflowId branch n att e hr] at h
      rw [Prod.mk.injEq] at h
      obtain ⟨-, h2⟩ := h
      exact absurd h2 (by simp)
    · rw [correlateAux_succ_empty env owner repo workflowId branch n att hr] at h
      rw [Prod.mk.injEq] at h
      obtain ⟨h1, h2⟩ := h
      have hrec : correlateAux env owner repo workflowId branch n (att + 1) =
          ((correlateAux env owner repo workflowId branch n (att + 1)).1,
            Except.ok (some r)) := by
        rw [← h2]
      obtain ⟨k, hk1, hk2, hk3, hk4, hk5⟩ := ih (att + 1) _ hrec
      exact ⟨k, by omega, by omega, hk3, hk4, hk5⟩
    · by_cases he : rr.created_at > env.nowAt att - 60000
      · rw [correlateAux_succ_accept env owner repo workflowId branch n att rr hr he] at h
        rw [Prod.mk.injEq] at h
        obtain ⟨-, h2⟩ := h
        injection h2 with h3
        injection h3 with h4
        subst h4
        exact ⟨att, Nat.le_refl att, by omega, hr, he, by omega⟩
      · rw [correlateAux_succ_stale env owner repo workflowId branch n att rr hr he] at h
        rw [Prod.mk.injEq] at h
        obtain ⟨h1, h2⟩ := h
        have hrec : correlateAux env owner repo workflowId branch n (att + 1) =
            ((correlateAux env owner repo workflowId branch n (att + 1)).1,
              Except.ok (some r)) := by
          rw [← h2]
        obtain ⟨k, hk1, hk2, hk3, hk4, hk5⟩ := ih (att + 1) _ hrec
        exact ⟨k, by omega, by omega, hk3, hk4, hk5⟩

/-- Witness for C2 at a concrete environment. -/
theorem c2_correlator_recency_witness :
    ∃ k, 0 ≤ k ∧ k < 0 + 30 ∧ baseEnv.listRunsResp k = Except.ok (some runA) ∧
      runA.created_at > baseEnv.nowAt k - 60000 ∧
      ¬ runA.created_at < baseEnv.nowAt k - 60000 :=
  c2_correlator_recency baseEnv (some "octo") (some "repo") 42 "main" 30 0
    [ApiCall.listRuns (some "octo") (some "repo") 42 "main" 1] runA rfl

/-- C3: when no attempt of the correlation loop yields an eligible run
(every listing response is an empty page or a run at least 60 seconds older
than that attempt's check time, and no listing call errors), the invocation
fails with the timeout error and none of the three run outputs is set. -/
theorem c3_correlation_timeout (fuel : Nat) (env : Env) (v : Json) (l : List Workflow)
    (fw : Workflow) (st : Nat)
    (hj : effInputs env = Except.ok v)
    (hl : env.listWorkflowsResp = Except.ok l)
    (hf : l.find? (matchesWorkflow env.inputWorkflow) = some fw)
    (hd : env.dispatchResp = Except.ok st)
    (hok : ∀ k, k < maxAttempts → ∃ o, env.listRunsResp k = Except.ok o)
    (hstale : ∀ k, k < maxAttempts → ∀ r, env.listRunsResp k = Except.ok (some r) →
      r.created_at ≤ env.nowAt k - 60000) :
    (runMain fuel env).outcome = Outcome.failed timeoutMsg ∧
    "workflow_run_id" ∉ (runMain fuel env).outputs.map Prod.fst ∧
    "workflow_run_status" ∉ (runMain fuel env).outputs.map Prod.fst ∧
    "workflow_run_conclusion" ∉ (runMain fuel env).outputs.map Prod.fst := by
  have hc : (theCorrelate env fw).2 = Except.ok none :=
    correlateAux_exhaust env (resolvedOwner env) (resolvedRepo env) fw.id (runBranch env)
      maxAttempts 0 (fun k h1 h2 => hok k (by omega)) (fun k h1 h2 => hstale k (by omega))
  rw [runMain_corr_timeout fuel env v l fw st hj hl hf hd hc,
    handleError_failed _ _ _ (by rfl)]
  exact ⟨rfl, by simp, by simp, by simp⟩

/-- Witness for C3 at a concrete environment. -/
theorem c3_correlation_timeout_witness :
    (runMain 1 envTimeout).outcome = Outcome.failed timeoutMsg ∧
    "workflow_run_id" ∉ (runMain 1 envTimeout).outputs.map Prod.fst := by
  have h := c3_correlation_timeout 1 envTimeout (Json.obj []) [wf1] wf1 204 rfl rfl rfl rfl
    (fun k hk => ⟨none, rfl⟩)
    (fun k hk r hr => by injection hr with h2; exact Option.noConfusion h2)
  exact ⟨h.1, h.2.1⟩

/-- C4: the Workflow Locator returns the earliest listed workflow matching
the identifier under any of the four predicate forms; when none matches,
the invocation fails with the not-found error, whose message contains the
identifier, the owner and the repo. -/
theorem c4_workflow_locator (env : Env) (fuel : Nat) (v : Json) (l : List Workflow)
    (hj : effInputs env = Except.ok v)
    (hl : env.listWorkflowsResp = Except.ok l) :
    ((∃ w ∈ l, matchesWorkflow env.inputWorkflow w = true) →
      ∃ pre w post, l = pre ++ w :: post ∧ matchesWorkflow env.inputWorkflow w = true ∧
        (∀ x ∈ pre, matchesWorkflow env.inputWorkflow x = false) ∧
        l.find? (matchesWorkflow env.inputWorkflow) = some w) ∧
    ((∀ w ∈ l, matchesWorkflow env.inputWorkflow w = false) →
      l.find? (matchesWorkflow env.inputWorkflow) = none ∧
      (runMain fuel env).outcome = Outcome.failed
        (notFoundMsg env.inputWorkflow (resolvedOwner env) (resolvedRepo env)) ∧
      (∃ a b, notFoundMsg env.inputWorkflow (resolvedOwner env) (resolvedRepo env) =
        a ++ env.inputWorkflow ++ b) ∧
      (∃ a b, notFoundMsg env.inputWorkflow (resolvedOwner env) (resolvedRepo env) =
        a ++ optRender (resolvedOwner env) ++ b) ∧
      (∃ a b, notFoundMsg env.inputWorkflow (resolvedOwner env) (resolvedRepo env) =
        a ++ optRender (resolvedRepo env) ++ b)) := by
  constructor
  · intro hex
    have hsome : (l.find? (matchesWorkflow env.inputWorkflow)).isSome :=
      List.find?_isSome.mpr hex
    obtain ⟨w, hw⟩ := Option.isSome_iff_exists.mp hsome
    obtain ⟨hpw, pre, post, hdecomp, hpre⟩ := List.find?_eq_some.mp hw
    exact ⟨pre, w, post, hdecomp, hpw, fun x hx => by simpa using hpre x hx, hw⟩
  · intro hnone
    have hfn : l.find? (matchesWorkflow env.inputWorkflow) = none := by
      rw [List.find?_eq_none]
      intro x hx
      simp [hnone x hx]
    refine ⟨hfn, ?_, ?_, ?_, ?_⟩
    · rw [runMain_not_found fuel env v l hj hl hfn, handleError_failed _ _ _
        (notFoundMsg_not_disabled env.inputWorkflow (resolvedOwner env) (resolvedRepo env))]
    · exact ⟨"Unable to find workflow '",
        "' in " ++ optRender (resolvedOwner env) ++ "/" ++ optRender (resolvedRepo env)
          ++ " 😥",
        by simp [notFoundMsg, String.append_assoc]⟩
    · exact ⟨"Unable to find workflow '" ++ env.inputWorkflow ++ "' in ",
        "/" ++ optRender (resolvedRepo env) ++ " 😥",
        by simp [notFoundMsg, String.append_assoc]⟩
    · exact ⟨"Unable to find workflow '" ++ env.inputWorkflow ++ "' in "
          ++ optRender (resolvedOwner env) ++ "/",
        " 😥",
        by simp [notFoundMsg, String.append_assoc]⟩

/-- Witness for C4: a matching list and a non-matching list. -/
theorem c4_workflow_locator_witness :
    (∃ pre w post, [wf1] = pre ++ w :: post ∧ matchesWorkflow "CI" w = true ∧
      (∀ x ∈ pre, matchesWorkflow "CI" x = false) ∧
      [wf1].find? (matchesWorkflow "CI") = some w) ∧
    (runMain 0 envNotFound).outcome = Outcome.failed
      (notFoundMsg "zzz" (some "octo") (some "repo")) := by
  constructor
  · exact (c4_workflow_locator baseEnv 0 (Json.obj []) [wf1] rfl rfl).1
      ⟨wf1, by simp, by rfl⟩
  · exact ((c4_workflow_locator envNotFound 0 (Json.obj []) [wf1] rfl rfl).2
      (by intro w hw; simp at hw; subst hw; rfl)).2.1

/-- C9: when the run snapshot obtained at correlation time already has
status `"completed"`, the Completion Poller performs zero `getRun` calls
and the three run outputs are set from that correlation-time snapshot. -/
theorem c9_poller_skip (fuel : Nat) (env : Env) (v : Json) (l : List Workflow)
    (fw : Workflow) (st : Nat) (wr : Run)
    (hj : effInputs env = Except.ok v)
    (hl : env.listWorkflowsResp = Except.ok l)
    (hf : l.find? (matchesWorkflow env.inputWorkflow) = some fw)
    (hd : env.dispatchResp = Except.ok st)
    (hc : (theCorrelate env fw).2 = Except.ok (some wr))
    (hcomp : wr.status = "completed") :
    (runMain fuel env).outcome = Outcome.success ∧
    (runMain fuel env).outputs =
      [("workflowId", OutVal.num fw.id),
       ("workflow_run_id", OutVal.num wr.id),
       ("workflow_run_status", OutVal.str wr.status),
       ("workflow_run_conclusion",
         match wr.conclusion with
         | some c => OutVal.str c
         | none => OutVal.null)] ∧
    ∀ o r i, ApiCall.getRun o r i ∉ (runMain fuel env).trace := by
  have hpoll : thePoll env fuel wr = ([], Except.ok (some wr)) :=
    pollAux_done env (resolvedOwner env) (resolvedRepo env) fuel 0 wr hcomp
  have hp2 : (thePoll env fuel wr).2 = Except.ok (some wr) := by rw [hpoll]
  rw [runMain_success fuel env v l fw st wr wr hj hl hf hd hc hp2]
  refine ⟨rfl, by simp [runOutputs], ?_⟩
  intro o r i hmem
  simp only [List.mem_cons, List.mem_append] at hmem
  rcases hmem with h1 | h1 | h1 | h1
  · exact ApiCall.noConfusion h1
  · exact ApiCall.noConfusion h1
  · exact ApiCall.noConfusion (correlateAux_calls env (resolvedOwner env) (resolvedRepo env)
      fw.id (runBranch env) maxAttempts 0 (ApiCall.getRun o r i) h1)
  · rw [show (thePoll env fuel wr).1 = [] from by rw [hpoll]] at h1
    simp at h1

/-- Witness for C9 at a concrete environment. -/
theorem c9_poller_skip_witness :
    (runMain 0 envDoneAtCorrelation).outputs =
      [("workflowId", OutVal.num 42), ("workflow_run_id", OutVal.num 9),
       ("workflow_run_status", OutVal.str "completed"),
       ("workflow_run_conclusion", OutVal.str "success")] ∧
    ApiCall.getRun (some "octo") (some "repo") 9 ∉ (runMain 0 envDoneAtCorrelation).trace := by
  have h := c9_poller_skip 0 envDoneAtCorrelation (Json.obj []) [wf1] wf1 204 runDone
    rfl rfl rfl rfl rfl rfl
  exact ⟨h.2.1, h.2.2 (some "octo") (some "repo") 9⟩

/-- C10: a `repo` input without a `/` does not raise a configuration error:
the whole string becomes the owner, the repo component is left undefined,
and the invocation proceeds to the workflow-listing call with those
values. -/
theorem c10_repo_no_slash (fuel : Nat) (env : Env) (v : Json)
    (hj : effInputs env = Except.ok v)
    (hrepo : env.inputRepo ≠ "")
    (hslash : ∀ c ∈ env.inputRepo.data, c ≠ '/') :
    resolvedOwner env = some env.inputRepo ∧
    resolvedRepo env = none ∧
    ∃ rest, (runMain fuel env).trace =
      ApiCall.listWorkflows (some env.inputRepo) none :: rest := by
  have hsplit : jsSplitSlash env.inputRepo = [env.inputRepo] :=
    jsSplitSlash_no_slash env.inputRepo hslash
  have ho : resolvedOwner env = some env.inputRepo := by
    unfold resolvedOwner
    rw [if_neg hrepo, hsplit]
    rfl
  have hre : resolvedRepo env = none := by
    unfold resolvedRepo
    rw [if_neg hrepo, hsplit]
    rfl
  refine ⟨ho, hre, ?_⟩
  have hlwc : listWorkflowsCall env = ApiCall.listWorkflows (some env.inputRepo) none := by
    unfold listWorkflowsCall
    rw [ho, hre]
  rcases runMain_cases fuel env with ⟨e, hje, heq⟩ | ⟨v', e, hj2, hl2, heq⟩ |
      ⟨v', l, hj2, hl2, hf2, heq⟩ |
      ⟨v', l, fw, e, hj2, hl2, hf2, hd2, heq⟩ |
      ⟨v', l, fw, st, e, hj2, hl2, hf2, hd2, hc2, heq⟩ |
      ⟨v', l, fw, st, hj2, hl2, hf2, hd2, hc2, heq⟩ |
      ⟨v', l, fw, st, wr, e, hj2, hl2, hf2, hd2, hc2, hp2, heq⟩ |
      ⟨v', l, fw, st, wr, hj2, hl2, hf2, hd2, hc2, hp2, heq⟩ |
      ⟨v', l, fw, st, wr, fin, hj2, hl2, hf2, hd2, hc2, hp2, heq⟩
  · rw [hje] at hj
    exact Except.noConfusion hj
  · exact ⟨[], by rw [heq, handleError_trace, hlwc]⟩
  · exact ⟨[], by rw [heq, handleError_trace, hlwc]⟩
  · exact ⟨[dispatchCall env fw v'], by rw [heq, handleError_trace, hlwc]⟩
  · exact ⟨dispatchCall env fw v' :: (theCorrelate env fw).1,
      by rw [heq, handleError_trace, hlwc]⟩
  · exact ⟨dispatchCall env fw v' :: (theCorrelate env fw).1,
      by rw [heq, handleError_trace, hlwc]⟩
  · exact ⟨dispatchCall env fw v' :: ((theCorrelate env fw).1 ++ (thePoll env fuel wr).1),
      by rw [heq, handleError_trace, hlwc]⟩
  · exact ⟨dispatchCall env fw v' :: ((theCorrelate env fw).1 ++ (thePoll env fuel wr).1),
      by rw [heq, hlwc]⟩
  · exact ⟨dispatchCall env fw v' :: ((theCorrelate env fw).1 ++ (thePoll env fuel wr).1),
      by rw [heq, hlwc]⟩

/-- Witness for C10 at a concrete environment. -/
theorem c10_repo_no_slash_witness :
    resolvedOwner envRepoNoSlash = some "solo" ∧
    resolvedRepo envRepoNoSlash = none ∧
    ∃ rest, (runMain 1 envRepoNoSlash).trace =
      ApiCall.listWorkflows (some "solo") none :: rest := by
  have h := c10_repo_no_slash 1 envRepoNoSlash (Json.obj []) rfl (by decide) (by decide)
  exact ⟨h.1, h.2.1, h.2.2⟩

/-- C5 as stated is false: a disabled-workflow error can also arrive after
the dispatch succeeded, and then the warning path returns success with the
`workflowId` output already set — not with "no outputs set". -/
theorem c5_disabled_counterexample :
    jsEndsWith "This operation refers to a disabled workflow" disabledSuffix = true ∧
    (runMain 1 envDisabledLate).outcome = Outcome.success ∧
    (runMain 1 envDisabledLate).warned = true ∧
    (runMain 1 envDisabledLate).outputs = [("workflowId", OutVal.num 42)] :=
  ⟨rfl, rfl, rfl, rfl⟩

/-- C5 (amended): at every phase where an error can arise, an error whose
message ends with `"a disabled workflow"` makes the invocation succeed
with a warning logged while the handler sets no outputs — the outputs
already set remain exactly as they were (none before dispatch succeeded,
only `workflowId` after) — and an error whose message ends in any other
text makes the invocation fail carrying that message verbatim (shown for
the parse, listing, not-found, dispatch, correlation, timeout and polling
exits); conversely, every failed outcome carries verbatim a non-suffix
message originating from the computation, and every warning accompanies a
success. -/
theorem c5_error_handling (fuel : Nat) (env : Env) :
    (∀ e, effInputs env = Except.error e →
      (jsEndsWith e disabledSuffix = true →
        (runMain fuel env).outcome = Outcome.success ∧
        (runMain fuel env).warned = true ∧ (runMain fuel env).outputs = []) ∧
      (jsEndsWith e disabledSuffix = false →
        (runMain fuel env).outcome = Outcome.failed e ∧
        (runMain fuel env).warned = false ∧ (runMain fuel env).outputs = [])) ∧
    (∀ v e, effInputs env = Except.ok v → env.listWorkflowsResp = Except.error e →
      (jsEndsWith e disabledSuffix = true →
        (runMain fuel env).outcome = Outcome.success ∧
        (runMain fuel env).warned = true ∧ (runMain fuel env).outputs = []) ∧
      (jsEndsWith e disabledSuffix = false →
        (runMain fuel env).outcome = Outcome.failed e ∧
        (runMain fuel env).warned = false ∧ (runMain fuel env).outputs = [])) ∧
    (∀ v l, effInputs env = Except.ok v → env.listWorkflowsResp = Except.ok l →
      l.find? (matchesWorkflow env.inputWorkflow) = none →
      (runMain fuel env).outcome = Outcome.failed
        (notFoundMsg env.inputWorkflow (resolvedOwner env) (resolvedRepo env)) ∧
      (runMain fuel env).warned = false ∧ (runMain fuel env).outputs = []) ∧
    (∀ v l fw e, effInputs env = Except.ok v → env.listWorkflowsResp = Except.ok l →
      l.find? (matchesWorkflow env.inputWorkflow) = some fw →
      env.dispatchResp = Except.error e →
      (jsEndsWith e disabledSuffix = true →
        (runMain fuel env).outcome = Outcome.success ∧
        (runMain fuel env).warned = true ∧ (runMain fuel env).outputs = []) ∧
      (jsEndsWith e disabledSuffix = false →
        (runMain fuel env).outcome = Outcome.failed e ∧
        (runMain fuel env).warned = false ∧ (runMain fuel env).outputs = [])) ∧
    (∀ v l fw st e, effInputs env = Except.ok v → env.listWorkflowsResp = Except.ok l →
      l.find? (matchesWorkflow env.inputWorkflow) = some fw →
      env.dispatchResp = Except.ok st → (theCorrelate env fw).2 = Except.error e →
      (jsEndsWith e disabledSuffix = true →
        (runMain fuel env).outcome = Outcome.success ∧
        (runMain fuel env).warned = true ∧
        (runMain fuel env).outputs = [("workflowId", OutVal.num fw.id)]) ∧
      (jsEndsWith e disabledSuffix = false →
        (runMain fuel env).outcome = Outcome.failed e ∧
        (runMain fuel env).warned = false ∧
        (runMain fuel env).outputs = [("workflowId", OutVal.num fw.id)])) ∧
    (∀ v l fw st, effInputs env = Except.ok v → env.listWorkflowsResp = Except.ok l →
      l.find? (matchesWorkflow env.inputWorkflow) = some fw →
      env.dispatchResp = Except.ok st → (theCorrelate env fw).2 = Except.ok none →
      (runMain fuel env).outcome = Outcome.failed timeoutMsg ∧
      (runMain fuel env).warned = false ∧
      (runMain fuel env).outputs = [("workflowId", OutVal.num fw.id)]) ∧
    (∀ v l fw st wr e, effInputs env = Except.ok v → env.listWorkflowsResp = Except.ok l →
      l.find? (matchesWorkflow env.inputWorkflow) = some fw →
      env.dispatchResp = Except.ok st → (theCorrelate env fw).2 = Except.ok (some wr) →
      (thePoll env fuel wr).2 = Except.error e →
      (jsEndsWith e disabledSuffix = true →
        (runMain fuel env).outcome = Outcome.success ∧
        (runMain fuel env).warned = true ∧
        (runMain fuel env).outputs = [("workflowId", OutVal.num fw.id)]) ∧
      (jsEndsWith e disabledSuffix = false →
        (runMain fuel env).outcome = Outcome.failed e ∧
        (runMain fuel env).warned = false ∧
        (runMain fuel env).outputs = [("workflowId", OutVal.num fw.id)])) ∧
    (∀ m, (runMain fuel env).outcome = Outcome.failed m →
      jsEndsWith m disabledSuffix = false ∧
      (m = notFoundMsg env.inputWorkflow (resolvedOwner env) (resolvedRepo env) ∨
       m = timeoutMsg ∨
       effInputs env = Except.error m ∨
       env.listWorkflowsResp = Except.error m ∨
       env.dispatchResp = Except.error m ∨
       (∃ k, env.listRunsResp k = Except.error m) ∨
       (∃ k i, env.getRunResp k i = Except.error m))) ∧
    ((runMain fuel env).warned = true →
      (runMain fuel env).outcome = Outcome.success ∧
      ((runMain fuel env).outputs.map Prod.fst = [] ∨
       (runMain fuel env).outputs.map Prod.fst = ["workflowId"])) := by
  have hconv : (∀ m, (runMain fuel env).outcome = Outcome.failed m →
      jsEndsWith m disabledSuffix = false ∧
      (m = notFoundMsg env.inputWorkflow (resolvedOwner env) (resolvedRepo env) ∨
       m = timeoutMsg ∨
       effInputs env = Except.error m ∨
       env.listWorkflowsResp = Except.error m ∨
       env.dispatchResp = Except.error m ∨
       (∃ k, env.listRunsResp k = Except.error m) ∨
       (∃ k i, env.getRunResp k i = Except.error m))) ∧
      ((runMain fuel env).warned = true →
        (runMain fuel env).outcome = Outcome.success ∧
        ((runMain fuel env).outputs.map Prod.fst = [] ∨
         (runMain fuel env).outputs.map Prod.fst = ["workflowId"])) := by
    rcases runMain_cases fuel env with ⟨e, hje, heq⟩ | ⟨v', e, hj2, hl2, heq⟩ |
        ⟨v', l, hj2, hl2, hf2, heq⟩ |
        ⟨v', l, fw, e, hj2, hl2, hf2, hd2, heq⟩ |
        ⟨v', l, fw, st, e, hj2, hl2, hf2, hd2, hc2, heq⟩ |
        ⟨v', l, fw, st, hj2, hl2, hf2, hd2, hc2, heq⟩ |
        ⟨v', l, fw, st, wr, e, hj2, hl2, hf2, hd2, hc2, hp2, heq⟩ |
        ⟨v', l, fw, st, wr, hj2, hl2, hf2, hd2, hc2, hp2, heq⟩ |
        ⟨v', l, fw, st, wr, fin, hj2, hl2, hf2, hd2, hc2, hp2, heq⟩ <;> rw [heq]
    · by_cases hsuf : jsEndsWith e disabledSuffix = true
      · rw [handleError_disabled _ _ _ hsuf]
        exact ⟨fun m hm => by simp at hm, fun _ => ⟨rfl, Or.inl rfl⟩⟩
      · rw [handleError_failed _ _ _ (Bool.eq_false_iff.mpr hsuf)]
        refine ⟨fun m hm => ?_, fun hw => by simp at hw⟩
        injection hm with hmm
        subst hmm
        exact ⟨Bool.eq_false_iff.mpr hsuf, Or.inr (Or.inr (Or.inl hje))⟩
    · by_cases hsuf : jsEndsWith e disabledSuffix = true
      · rw [handleError_disabled _ _ _ hsuf]
        exact ⟨fun m hm => by simp at hm, fun _ => ⟨rfl, Or.inl rfl⟩⟩
      · rw [handleError_failed _ _ _ (Bool.eq_false_iff.mpr hsuf)]
        refine ⟨fun m hm => ?_, fun hw => by simp at hw⟩
        injection hm with hmm
        subst hmm
        exact ⟨Bool.eq_false_iff.mpr hsuf, Or.inr (Or.inr (Or.inr (Or.inl hl2)))⟩
    · rw [handleError_failed _ _ _
        (notFoundMsg_not_disabled env.inputWorkflow (resolvedOwner env) (resolvedRepo env))]
      refine ⟨fun m hm => ?_, fun hw => by simp at hw⟩
      injection hm with hmm
      subst hmm
      exact ⟨notFoundMsg_not_disabled env.inputWorkflow (resolvedOwner env) (resolvedRepo env),
        Or.inl rfl⟩
    · by_cases hsuf : jsEndsWith e disabledSuffix = true
      · rw [handleError_disabled _ _ _ hsuf]
        exact ⟨fun m hm => by simp at hm, fun _ => ⟨rfl, Or.inl rfl⟩⟩
      · rw [handleError_failed _ _ _ (Bool.eq_false_iff.mpr hsuf)]
        refine ⟨fun m hm => ?_, fun hw => by simp at hw⟩
        injection hm with hmm
        subst hmm
        exact ⟨Bool.eq_false_iff.mpr hsuf,
          Or.inr (Or.inr (Or.inr (Or.inr (Or.inl hd2))))⟩
    · by_cases hsuf : jsEndsWith e disabledSuffix = true
      · rw [handleError_disabled _ _ _ hsuf]
        exact ⟨fun m hm => by simp at hm, fun _ => ⟨rfl, Or.inr rfl⟩⟩
      · rw [handleError_failed _ _ _ (Bool.eq_false_iff.mpr hsuf)]
        refine ⟨fun m hm => ?_, fun hw => by simp at hw⟩
        injection hm with hmm
        subst hmm
        exact ⟨Bool.eq_false_iff.mpr hsuf,
          Or.inr (Or.inr (Or.inr (Or.inr (Or.inr (Or.inl
            (correlateAux_error env (resolvedOwner env) (resolvedRepo env) fw.id
              (runBranch env) maxAttempts 0 e hc2))))))⟩
    · rw [handleError_failed _ _ _ (by rfl)]
      refine ⟨fun m hm => ?_, fun hw => by simp at hw⟩
      injection hm with hmm
      subst hmm
      exact ⟨by rfl, Or.inr (Or.inl rfl)⟩
    · by_cases hsuf : jsEndsWith e disabledSuffix = true
      · rw [handleError_disabled _ _ _ hsuf]
        exact ⟨fun m hm => by simp at hm, fun _ => ⟨rfl, Or.inr rfl⟩⟩
      · rw [handleError_failed _ _ _ (Bool.eq_false_iff.mpr hsuf)]
        refine ⟨fun m hm => ?_, fun hw => by simp at hw⟩
        injection hm with hmm
        subst hmm
        exact ⟨Bool.eq_false_iff.mpr hsuf,
          Or.inr (Or.inr (Or.inr (Or.inr (Or.inr (Or.inr
            (pollAux_error env (resolvedOwner env) (resolvedRepo env) fuel 0 wr e hp2))))))⟩
    · exact ⟨fun m hm => by simp at hm, fun hw => by simp at hw⟩
    · exact ⟨fun m hm => by simp at hm, fun hw => by simp at hw⟩
  refine ⟨?_, ?_, ?_, ?_, ?_, ?_, ?_, hconv.1, hconv.2⟩
  · intro e hj
    rw [runMain_parse_error fuel env e hj]
    constructor
    · intro hsuf
      rw [handleError_disabled _ _ _ hsuf]
      exact ⟨rfl, rfl, rfl⟩
    · intro hsuf
      rw [handleError_failed _ _ _ hsuf]
      exact ⟨rfl, rfl, rfl⟩
  · intro v e hj hl
    rw [runMain_listWorkflows_error fuel env v e hj hl]
    constructor
    · intro hsuf
      rw [handleError_disabled _ _ _ hsuf]
      exact ⟨rfl, rfl, rfl⟩
    · intro hsuf
      rw [handleError_failed _ _ _ hsuf]
      exact ⟨rfl, rfl, rfl⟩
  · intro v l hj hl hf
    rw [runMain_not_found fuel env v l hj hl hf, handleError_failed _ _ _
      (notFoundMsg_not_disabled env.inputWorkflow (resolvedOwner env) (resolvedRepo env))]
    exact ⟨rfl, rfl, rfl⟩
  · intro v l fw e hj hl hf hd
    rw [runMain_dispatch_error fuel env v l fw e hj hl hf hd]
    constructor
    · intro hsuf
      rw [handleError_disabled _ _ _ hsuf]
      exact ⟨rfl, rfl, rfl⟩
    · intro hsuf
      rw [handleError_failed _ _ _ hsuf]
      exact ⟨rfl, rfl, rfl⟩
  · intro v l fw st e hj hl hf hd hc
    rw [runMain_corr_error fuel env v l fw st e hj hl hf hd hc]
    constructor
    · intro hsuf
      rw [handleError_disabled _ _ _ hsuf]
      exact ⟨rfl, rfl, rfl⟩
    · intro hsuf
      rw [handleError_failed _ _ _ hsuf]
      exact ⟨rfl, rfl, rfl⟩
  · intro v l fw st hj hl hf hd hc
    rw [runMain_corr_timeout fuel env v l fw st hj hl hf hd hc,
      handleError_failed _ _ _ (by rfl)]
    exact ⟨rfl, rfl, rfl⟩
  · intro v l fw st wr e hj hl hf hd hc hp
    rw [runMain_poll_error fuel env v l fw st wr e hj hl hf hd hc hp]
    constructor
    · intro hsuf
      rw [handleError_disabled _ _ _ hsuf]
      exact ⟨rfl, rfl, rfl⟩
    · intro hsuf
      rw [handleError_failed _ _ _ hsuf]
      exact ⟨rfl, rfl, rfl⟩

/-- Witness for C5 (amended) at concrete environments: a disabled-suffixed
correlation-phase error yields success with a warning and only the
previously set `workflowId` output, and a non-suffix parse error yields a
verbatim failure. -/
theorem c5_error_handling_witness :
    (runMain 1 envDisabledLate).outcome = Outcome.success ∧
    (runMain 1 envDisabledLate).warned = true ∧
    (runMain 1 envDisabledLate).outputs = [("workflowId", OutVal.num 42)] ∧
    (runMain 1 envBadInputs).outcome = Outcome.failed "Unexpected token" := by
  have h1 := ((c5_error_handling 1 envDisabledLate).2.2.2.2.1 (Json.obj []) [wf1] wf1 204
    "This operation refers to a disabled workflow" rfl rfl rfl rfl rfl).1 rfl
  have h2 := ((c5_error_handling 1 envBadInputs).1 "Unexpected token" rfl).2 rfl
  exact ⟨h1.1, h1.2.1, h1.2.2, h2.1⟩
/-- C6 as stated is false at the empty inputs string: `""` is not valid
JSON (the parser rejects it), yet the invocation does not fail before a
network call — it proceeds through dispatch and polling to success. -/
theorem c6_empty_inputs_counterexample :
    envEmptyInputs.inputInputs = "" ∧
    envEmptyInputs.parseJson envEmptyInputs.inputInputs =
      Except.error "Unexpected end of JSON input" ∧
    (runMain 1 envEmptyInputs).trace =
      [ApiCall.listWorkflows (some "octo") (some "repo"),
       ApiCall.dispatch (some "octo") (some "repo") 42 "main" (Json.obj []),
       ApiCall.listRuns (some "octo") (some "repo") 42 "main" 1,
       ApiCall.getRun (some "octo") (some "repo") 7] ∧
    (runMain 1 envEmptyInputs).outcome = Outcome.success :=
  ⟨rfl, rfl, rfl, rfl⟩

/-- C6 (amended): a NONEMPTY inputs string that the JSON parser rejects
makes the invocation terminate through the top-level handler before any
outbound call, with no outputs and (for an ordinary parse-error message)
a failed outcome carrying the message; the empty string is instead treated
as absent, defaulting the payload to `{}`; whenever the effective inputs
value is `v`, every dispatch call carries exactly `v` as its payload. -/
theorem c6_inputs_contract (fuel : Nat) (env : Env) :
    (∀ e, env.inputInputs ≠ "" → env.parseJson env.inputInputs = Except.error e →
      (runMain fuel env).trace = [] ∧ (runMain fuel env).outputs = [] ∧
      (jsEndsWith e disabledSuffix = false →
        (runMain fuel env).outcome = Outcome.failed e)) ∧
    (env.inputInputs = "" → effInputs env = Except.ok (Json.obj [])) ∧
    (∀ v, effInputs env = Except.ok v →
      ∀ o r wid ref payload,
        ApiCall.dispatch o r wid ref payload ∈ (runMain fuel env).trace →
        payload = v) := by
  refine ⟨?_, ?_, ?_⟩
  · intro e hne hperr
    have hj : effInputs env = Except.error e := by
      unfold effInputs
      rw [if_neg hne, hperr]
    rw [runMain_parse_error fuel env e hj]
    refine ⟨handleError_trace _ _ _, handleError_outputs _ _ _, fun hsuf => ?_⟩
    rw [handleError_failed _ _ _ hsuf]
  · intro hemp
    unfold effInputs
    rw [if_pos hemp]
  · intro v hv o r wid ref payload hmem
    rcases runMain_cases fuel env with ⟨e, hje, heq⟩ | ⟨v', e, hj2, hl2, heq⟩ |
        ⟨v', l, hj2, hl2, hf2, heq⟩ |
        ⟨v', l, fw, e, hj2, hl2, hf2, hd2, heq⟩ |
        ⟨v', l, fw, st, e, hj2, hl2, hf2, hd2, hc2, heq⟩ |
        ⟨v', l, fw, st, hj2, hl2, hf2, hd2, hc2, heq⟩ |
        ⟨v', l, fw, st, wr, e, hj2, hl2, hf2, hd2, hc2, hp2, heq⟩ |
        ⟨v', l, fw, st, wr, hj2, hl2, hf2, hd2, hc2, hp2, heq⟩ |
        ⟨v', l, fw, st, wr, fin, hj2, hl2, hf2, hd2, hc2, hp2, heq⟩
    · rw [hje] at hv
      exact Except.noConfusion hv
    · rw [heq, handleError_trace] at hmem
      simp only [List.mem_singleton] at hmem
      exact ApiCall.noConfusion hmem
    · rw [heq, handleError_trace] at hmem
      simp only [List.mem_singleton] at hmem
      exact ApiCall.noConfusion hmem
    · rw [hv] at hj2
      injection hj2 with hvv
      rw [heq, handleError_trace] at hmem
      simp only [List.mem_cons] at hmem
      rcases hmem with h1 | h1 | h1
      · exact ApiCall.noConfusion h1
      · injection h1 with e1 e2 e3 e4 e5
        rw [e5, ← hvv]
      · simp at h1
    · rw [hv] at hj2
      injection hj2 with hvv
      rw [heq, handleError_trace] at hmem
      simp only [List.mem_cons] at hmem
      rcases hmem with h1 | h1 | h1
      · exact ApiCall.noConfusion h1
      · injection h1 with e1 e2 e3 e4 e5
        rw [e5, ← hvv]
      · exact ApiCall.noConfusion (correlateAux_calls env (resolvedOwner env)
          (resolvedRepo env) fw.id (runBranch env) maxAttempts 0 _ h1)
    · rw [hv] at hj2
      injection hj2 with hvv
      rw [heq, handleError_trace] at hmem
      simp only [List.mem_cons] at hmem
      rcases hmem with h1 | h1 | h1
      · exact ApiCall.noConfusion h1
      · injection h1 with e1 e2 e3 e4 e5
        rw [e5, ← hvv]
      · exact ApiCall.noConfusion (correlateAux_calls env (resolvedOwner env)
          (resolvedRepo env) fw.id (runBranch env) maxAttempts 0 _ h1)
    · rw [hv] at hj2
      injection hj2 with hvv
      rw [heq, handleError_trace] at hmem
      simp only [List.mem_cons, List.mem_append] at hmem
      rcases hmem with h1 | h1 | h1 | h1
      · exact ApiCall.noConfusion h1
      · injection h1 with e1 e2 e3 e4 e5
        rw [e5, ← hvv]
      · exact ApiCall.noConfusion (correlateAux_calls env (resolvedOwner env)
          (resolvedRepo env) fw.id (runBranch env) maxAttempts 0 _ h1)
      · obtain ⟨i, hi⟩ := pollAux_calls env (resolvedOwner env) (resolvedRepo env)
          fuel 0 wr _ h1
        exact ApiCall.noConfusion hi
    · rw [hv] at hj2
      injection hj2 with hvv
      rw [heq] at hmem
      simp only [List.mem_cons, List.mem_append] at hmem
      rcases hmem with h1 | h1 | h1 | h1
      · exact ApiCall.noConfusion h1
      · injection h1 with e1 e2 e3 e4 e5
        rw [e5, ← hvv]
      · exact ApiCall.noConfusion (correlateAux_calls env (resolvedOwner env)
          (resolvedRepo env) fw.id (runBranch env) maxAttempts 0 _ h1)
      · obtain ⟨i, hi⟩ := pollAux_calls env (resolvedOwner env) (resolvedRepo env)
          fuel 0 wr _ h1
        exact ApiCall.noConfusion hi
    · rw [hv] at hj2
      injection hj2 with hvv
      rw [heq] at hmem
      simp only [List.mem_cons, List.mem_append] at hmem
      rcases hmem with h1 | h1 | h1 | h1
      · exact ApiCall.noConfusion h1
      · injection h1 with e1 e2 e3 e4 e5
        rw [e5, ← hvv]
      · exact ApiCall.noConfusion (correlateAux_calls env (resolvedOwner env)
          (resolvedRepo env) fw.id (runBranch env) maxAttempts 0 _ h1)
      · obtain ⟨i, hi⟩ := pollAux_calls env (resolvedOwner env) (resolvedRepo env)
          fuel 0 wr _ h1
        exact ApiCall.noConfusion hi

/-- Witness for C6 (amended) at a concrete environment with a malformed
nonempty inputs string. -/
theorem c6_inputs_contract_witness :
    (runMain 1 envBadInputs).trace = [] ∧ (runMain 1 envBadInputs).outputs = [] ∧
    (runMain 1 envBadInputs).outcome = Outcome.failed "Unexpected token" := by
  have h := (c6_inputs_contract 1 envBadInputs).1 "Unexpected token" (by decide) rfl
  exact ⟨h.1, h.2.1, h.2.2 rfl⟩

/-- C7: across one invocation the outputs are `[]`, `[workflowId]`, or the
full ordered quadruple, so at most four outputs are produced, each at most
once, in order, the three run outputs only together; a failed outcome
never has more than the `workflowId` output set; and when the dispatch
call has succeeded but the invocation nevertheless fails (correlation or
polling failed), exactly the `workflowId` output — carrying the dispatched
workflow's id — has been set, and none of the three run outputs. -/
theorem c7_outputs_frame (fuel : Nat) (env : Env) :
    ((runMain fuel env).outputs.map Prod.fst = [] ∨
     (runMain fuel env).outputs.map Prod.fst = ["workflowId"] ∨
     (runMain fuel env).outputs.map Prod.fst =
       ["workflowId", "workflow_run_id", "workflow_run_status",
        "workflow_run_conclusion"]) ∧
    (∀ m, (runMain fuel env).outcome = Outcome.failed m →
      (runMain fuel env).outputs.map Prod.fst = [] ∨
      (runMain fuel env).outputs.map Prod.fst = ["workflowId"]) ∧
    (∀ v l fw st, effInputs env = Except.ok v → env.listWorkflowsResp = Except.ok l →
      l.find? (matchesWorkflow env.inputWorkflow) = some fw →
      env.dispatchResp = Except.ok st →
      ∀ m, (runMain fuel env).outcome = Outcome.failed m →
        (runMain fuel env).outputs = [("workflowId", OutVal.num fw.id)]) := by
  have hmain : ((runMain fuel env).outputs.map Prod.fst = [] ∨
      (runMain fuel env).outputs.map Prod.fst = ["workflowId"] ∨
      (runMain fuel env).outputs.map Prod.fst =
        ["workflowId", "workflow_run_id", "workflow_run_status",
         "workflow_run_conclusion"]) ∧
      (∀ m, (runMain fuel env).outcome = Outcome.failed m →
        (runMain fuel env).outputs.map Prod.fst = [] ∨
        (runMain fuel env).outputs.map Prod.fst = ["workflowId"]) := by
    rcases runMain_cases fuel env with ⟨e, hje, heq⟩ | ⟨v', e, hj2, hl2, heq⟩ |
        ⟨v', l, hj2, hl2, hf2, heq⟩ |
        ⟨v', l, fw, e, hj2, hl2, hf2, hd2, heq⟩ |
        ⟨v', l, fw, st, e, hj2, hl2, hf2, hd2, hc2, heq⟩ |
        ⟨v', l, fw, st, hj2, hl2, hf2, hd2, hc2, heq⟩ |
        ⟨v', l, fw, st, wr, e, hj2, hl2, hf2, hd2, hc2, hp2, heq⟩ |
        ⟨v', l, fw, st, wr, hj2, hl2, hf2, hd2, hc2, hp2, heq⟩ |
        ⟨v', l, fw, st, wr, fin, hj2, hl2, hf2, hd2, hc2, hp2, heq⟩ <;> rw [heq]
    · exact ⟨Or.inl (by simp [handleError_outputs]),
        fun m _ => Or.inl (by simp [handleError_outputs])⟩
    · exact ⟨Or.inl (by simp [handleError_outputs]),
        fun m _ => Or.inl (by simp [handleError_outputs])⟩
    · exact ⟨Or.inl (by simp [handleError_outputs]),
        fun m _ => Or.inl (by simp [handleError_outputs])⟩
    · exact ⟨Or.inl (by simp [handleError_outputs]),
        fun m _ => Or.inl (by simp [handleError_outputs])⟩
    · exact ⟨Or.inr (Or.inl (by simp [handleError_outputs])),
        fun m _ => Or.inr (by simp [handleError_outputs])⟩
    · exact ⟨Or.inr (Or.inl (by simp [handleError_outputs])),
        fun m _ => Or.inr (by simp [handleError_outputs])⟩
    · exact ⟨Or.inr (Or.inl (by simp [handleError_outputs])),
        fun m _ => Or.inr (by simp [handleError_outputs])⟩
    · exact ⟨Or.inr (Or.inl rfl), fun m hm => by simp at hm⟩
    · exact ⟨Or.inr (Or.inr (by simp [runOutputs])), fun m hm => by simp at hm⟩
  refine ⟨hmain.1, hmain.2, ?_⟩
  intro v l fw st hj hl hf hd m hm
  rcases runMain_cases fuel env with ⟨e, hje, heq⟩ | ⟨v', e, hj2, hl2, heq⟩ |
      ⟨v', l', hj2, hl2, hf2, heq⟩ |
      ⟨v', l', fw', e, hj2, hl2, hf2, hd2, heq⟩ |
      ⟨v', l', fw', st', e, hj2, hl2, hf2, hd2, hc2, heq⟩ |
      ⟨v', l', fw', st', hj2, hl2, hf2, hd2, hc2, heq⟩ |
      ⟨v', l', fw', st', wr, e, hj2, hl2, hf2, hd2, hc2, hp2, heq⟩ |
      ⟨v', l', fw', st', wr, hj2, hl2, hf2, hd2, hc2, hp2, heq⟩ |
      ⟨v', l', fw', st', wr, fin, hj2, hl2, hf2, hd2, hc2, hp2, heq⟩
  · rw [hje] at hj
    exact Except.noConfusion hj
  · rw [hl] at hl2
    exact Except.noConfusion hl2
  · rw [hl] at hl2
    injection hl2 with hll
    subst hll
    rw [hf] at hf2
    exact Option.noConfusion hf2
  · rw [hd] at hd2
    exact Except.noConfusion hd2
  · rw [hl] at hl2
    injection hl2 with hll
    subst hll
    rw [hf] at hf2
    injection hf2 with hff
    subst hff
    rw [heq, handleError_outputs]
  · rw [hl] at hl2
    injection hl2 with hll
    subst hll
    rw [hf] at hf2
    injection hf2 with hff
    subst hff
    rw [heq, handleError_outputs]
  · rw [hl] at hl2
    injection hl2 with hll
    subst hll
    rw [hf] at hf2
    injection hf2 with hff
    subst hff
    rw [heq, handleError_outputs]
  · rw [heq] at hm
    simp at hm
  · rw [heq] at hm
    simp at hm

/-- Witness for C7: the fully-successful environment produces the full
quadruple, and the dispatch-succeeded-then-timeout environment has exactly
the `workflowId` output. -/
theorem c7_outputs_frame_witness :
    ((runMain 1 baseEnv).outputs.map Prod.fst = [] ∨
     (runMain 1 baseEnv).outputs.map Prod.fst = ["workflowId"] ∨
     (runMain 1 baseEnv).outputs.map Prod.fst =
       ["workflowId", "workflow_run_id", "workflow_run_status",
        "workflow_run_conclusion"]) ∧
    (runMain 1 envTimeout).outputs = [("workflowId", OutVal.num 42)] := by
  refine ⟨(c7_outputs_frame 1 baseEnv).1, ?_⟩
  exact (c7_outputs_frame 1 envTimeout).2.2 (Json.obj []) [wf1] wf1 204 rfl rfl rfl rfl
    timeoutMsg rfl

/-- C8 as stated is false: the code's branch derivation
`ref.replace('refs/heads/', '')` removes the first occurrence of the
substring anywhere in the ref, not only a leading prefix — on the ref
`"a-refs/heads/b"`, which does not start with `refs/heads/`, the spec-side
derivation leaves the ref unchanged while the code's listing call uses
branch `"a-b"`. -/
theorem c8_branch_counterexample :
    specBranchOfRef "a-refs/heads/b" = "a-refs/heads/b" ∧
    (runMain 1 envMidRef).trace =
      [ApiCall.listWorkflows (some "octo") (some "repo"),
       ApiCall.dispatch (some "octo") (some "repo") 42 "a-refs/heads/b" (Json.obj []),
       ApiCall.listRuns (some "octo") (some "repo") 42 "a-b" 1,
       ApiCall.getRun (some "octo") (some "repo") 7] ∧
    ("a-b" : String) ≠ "a-refs/heads/b" :=
  ⟨rfl, rfl, by decide⟩

/-- C8 (amended): every `listRuns` call of the invocation targets the
resolved workflow id with page size 1 and the branch obtained by removing
the FIRST occurrence of the substring `refs/heads/` from the resolved ref;
in particular a leading `refs/heads/` prefix is stripped, and a ref in
which the substring does not occur at all is passed unchanged. -/
theorem c8_listruns_params (fuel : Nat) (env : Env) (v : Json) (l : List Workflow)
    (fw : Workflow) (st : Nat)
    (hj : effInputs env = Except.ok v)
    (hl : env.listWorkflowsResp = Except.ok l)
    (hf : l.find? (matchesWorkflow env.inputWorkflow) = some fw)
    (hd : env.dispatchResp = Except.ok st) :
    (∀ o r w b p, ApiCall.listRuns o r w b p ∈ (runMain fuel env).trace →
      o = resolvedOwner env ∧ r = resolvedRepo env ∧ w = fw.id ∧
      b = jsReplaceFirst (resolvedRef env) "refs/heads/" ∧ p = 1) ∧
    (∀ s : String, ("refs/heads/" : String).data.isPrefixOf s.data = true →
      jsReplaceFirst s "refs/heads/" = String.mk (s.data.drop 11)) ∧
    (∀ s : String, (∀ pre post, s.data ≠ pre ++ ("refs/heads/" : String).data ++ post) →
      jsReplaceFirst s "refs/heads/" = s) := by
  refine ⟨?_, ?_, ?_⟩
  · intro o r w b p hmem
    rcases runMain_cases fuel env with ⟨e, hje, heq⟩ | ⟨v', e, hj2, hl2, heq⟩ |
        ⟨v', l', hj2, hl2, hf2, heq⟩ |
        ⟨v', l', fw', e, hj2, hl2, hf2, hd2, heq⟩ |
        ⟨v', l', fw', st', e, hj2, hl2, hf2, hd2, hc2, heq⟩ |
        ⟨v', l', fw', st', hj2, hl2, hf2, hd2, hc2, heq⟩ |
        ⟨v', l', fw', st', wr, e, hj2, hl2, hf2, hd2, hc2, hp2, heq⟩ |
        ⟨v', l', fw', st', wr, hj2, hl2, hf2, hd2, hc2, hp2, heq⟩ |
        ⟨v', l', fw', st', wr, fin, hj2, hl2, hf2, hd2, hc2, hp2, heq⟩
    · rw [hje] at hj
      exact Except.noConfusion hj
    · rw [hl] at hl2
      exact Except.noConfusion hl2
    · rw [hl] at hl2
      injection hl2 with hll
      subst hll
      rw [hf] at hf2
      exact Option.noConfusion hf2
    · rw [hd] at hd2
      exact Except.noConfusion hd2
    · rw [hl] at hl2
      injection hl2 with hll
      subst hll
      rw [hf] at hf2
      injection hf2 with hff
      subst hff
      rw [heq, handleError_trace] at hmem
      simp only [List.mem_cons] at hmem
      rcases hmem with h1 | h1 | h1
      · exact ApiCall.noConfusion h1
      · exact ApiCall.noConfusion h1
      · have hcan := correlateAux_calls env (resolvedOwner env) (resolvedRepo env)
          fw.id (runBranch env) maxAttempts 0 _ h1
        injection hcan with e1 e2 e3 e4 e5
        exact ⟨e1, e2, e3, e4, e5⟩
    · rw [hl] at hl2
      injection hl2 with hll
      subst hll
      rw [hf] at hf2
      injection hf2 with hff
      subst hff
      rw [heq, handleError_trace] at hmem
      simp only [List.mem_cons] at hmem
      rcases hmem with h1 | h1 | h1
      · exact ApiCall.noConfusion h1
      · exact ApiCall.noConfusion h1
      · have hcan := correlateAux_calls env (resolvedOwner env) (resolvedRepo env)
          fw.id (runBranch env) maxAttempts 0 _ h1
        injection hcan with e1 e2 e3 e4 e5
        exact ⟨e1, e2, e3, e4, e5⟩
    · rw [hl] at hl2
      injection hl2 with hll
      subst hll
      rw [hf] at hf2
      injection hf2 with hff
      subst hff
      rw [heq, handleError_trace] at hmem
      simp only [List.mem_cons, List.mem_append] at hmem
      rcases hmem with h1 | h1 | h1 | h1
      · exact ApiCall.noConfusion h1
      · exact ApiCall.noConfusion h1
      · have hcan := correlateAux_calls env (resolvedOwner env) (resolvedRepo env)
          fw.id (runBranch env) maxAttempts 0 _ h1
        injection hcan with e1 e2 e3 e4 e5
        exact ⟨e1, e2, e3, e4, e5⟩
      · obtain ⟨i, hi⟩ := pollAux_calls env (resolvedOwner env) (resolvedRepo env)
          fuel 0 wr _ h1
        exact ApiCall.noConfusion hi
    · rw [hl] at hl2
      injection hl2 with hll
      subst hll
      rw [hf] at hf2
      injection hf2 with hff
      subst hff
      rw [heq] at hmem
      simp only [List.mem_cons, List.mem_append] at hmem
      rcases hmem with h1 | h1 | h1 | h1
      · exact ApiCall.noConfusion h1
      · exact ApiCall.noConfusion h1
      · have hcan := correlateAux_calls env (resolvedOwner env) (resolvedRepo env)
          fw.id (runBranch env) maxAttempts 0 _ h1
        injection hcan with e1 e2 e3 e4 e5
        exact ⟨e1, e2, e3, e4, e5⟩
      · obtain ⟨i, hi⟩ := pollAux_calls env (resolvedOwner env) (resolvedRepo env)
          fuel 0 wr _ h1
        exact ApiCall.noConfusion hi
    · rw [hl] at hl2
      injection hl2 with hll
      subst hll
      rw [hf] at hf2
      injection hf2 with hff
      subst hff
      rw [heq] at hmem
      simp only [List.mem_cons, List.mem_append] at hmem
      rcases hmem with h1 | h1 | h1 | h1
      · exact ApiCall.noConfusion h1
      · exact ApiCall.noConfusion h1
      · have hcan := correlateAux_calls env (resolvedOwner env) (resolvedRepo env)
          fw.id (runBranch env) maxAttempts 0 _ h1
        injection hcan with e1 e2 e3 e4 e5
        exact ⟨e1, e2, e3, e4, e5⟩
      · obtain ⟨i, hi⟩ := pollAux_calls env (resolvedOwner env) (resolvedRepo env)
          fuel 0 wr _ h1
        exact ApiCall.noConfusion hi
  · intro s hp
    exact jsReplaceFirst_of_leading s "refs/heads/" (by decide) hp
  · intro s hno
    exact jsReplaceFirst_no_occurrence s "refs/heads/" hno

/-- Witness for C8 (amended) at concrete refs. -/
theorem c8_listruns_params_witness :
    ("a-b" : String) = jsReplaceFirst (resolvedRef envMidRef) "refs/heads/" ∧
    jsReplaceFirst "refs/heads/x" "refs/heads/" = "x" := by
  have h := c8_listruns_params 1 envMidRef (Json.obj []) [wf1] wf1 204 rfl rfl rfl rfl
  constructor
  · have hm : ApiCall.listRuns (some "octo") (some "repo") 42 "a-b" 1 ∈
        (runMain 1 envMidRef).trace := by
      rw [show (runMain 1 envMidRef).trace =
        [ApiCall.listWorkflows (some "octo") (some "repo"),
         ApiCall.dispatch (some "octo") (some "repo") 42 "a-refs/heads/b" (Json.obj []),
         ApiCall.listRuns (some "octo") (some "repo") 42 "a-b" 1,
         ApiCall.getRun (some "octo") (some "repo") 7] from rfl]
      simp
    exact (h.1 (some "octo") (some "repo") 42 "a-b" 1 hm).2.2.2.1
  · exact h.2.1 "refs/heads/x" rfl

end WorkflowDispatch
